import Mathlib

/-! # Verification of the Automate.io plan-generation and validation pipeline

A shallow embedding of the Python sources `Backend/agents/Ceo.py`,
`Backend/agents/customer.py` and `Backend/main.py` of the Automate.io
repository, together with theorems settling the frozen specification
claims about the currency normalizer, the plan validator/repairer, the
field extractor and the HTTP error behaviour.

Modelling conventions:
* JSON values (the loosely-typed trees flowing out of the LLM and into the
  validator) are the inductive type `JVal`; Python dicts are ordered
  association lists (`Obj`) with first-occurrence lookup and
  update-in-place/append-at-end assignment, matching CPython dict
  semantics for duplicate-free key lists.
* Python floats are `PFloat`: an exact rational for finite values plus
  the distinguished `inf`, `neginf` and `nan` values.  Arithmetic on
  finite values is exact rational arithmetic (rounding of IEEE-754
  doubles is idealized away); where the rounding itself is at issue —
  the stored budget-allocation component values of claim C6 — the
  faithful binary64 semantics is modelled separately by `fl` (round to
  nearest double, ties to even, as an exact rational) and
  `budgetComponentsF`.  The special values follow Python semantics
  (`int(inf)` raises `OverflowError`, `int(nan)` raises `ValueError`).
* Fallible Python code returns `Except Err _`; an `Except.error` value is
  a raised Python exception.
* The two LLM invocations (insight extraction and plan generation) are
  oracles passed in as `LLMResult` parameters: `.ok payload` is a call
  whose JSON output parsed to `payload`, `.fail msg` is a call that
  raised an exception whose `str` is `msg`.
-/

attribute [local semireducible] Rat.mul Rat.add Rat.inv Rat.sub Rat.ofScientific

namespace AutomateIO

/-! ## Python float values -/

/-- A Python `float`: either an exact finite rational (IEEE rounding is
idealized away) or one of the special values `inf`, `-inf`, `nan`. -/
inductive PFloat where
  | finite (q : ℚ)
  | inf
  | neginf
  | nan
deriving DecidableEq, Repr

namespace PFloat

/-- Is this float finite? -/
def isFinite : PFloat → Bool
  | finite _ => true
  | _ => false

/-- Multiply a Python float by a rational constant (used for the fixed
budget proportions `0.15`, `0.25`, `0.50`, `0.10` in `Ceo.py`).  The
finite case is exact rational multiplication, an idealization of the
binary64 product; `fl` and `budgetComponentsF` below give the faithful
rounded semantics for the one place where the difference carries weight,
the stored budget-allocation component values (claim C6). -/
def mulQ : PFloat → ℚ → PFloat
  | finite a, c => finite (a * c)
  | inf, c => if 0 < c then inf else if c < 0 then neginf else nan
  | neginf, c => if 0 < c then neginf else if c < 0 then inf else nan
  | nan, _ => nan

/-- Divide a Python float by a nonzero rational constant. -/
def divQ : PFloat → ℚ → PFloat
  | finite a, c => finite (a / c)
  | inf, c => if 0 < c then inf else neginf
  | neginf, c => if 0 < c then neginf else inf
  | nan, _ => nan

/-- Python truthiness of a float: `bool(0.0) = False`, every other float
(including `inf` and `nan`) is truthy. -/
def truthy : PFloat → Bool
  | finite q => q ≠ 0
  | _ => true

end PFloat

/-- Truncation toward zero, the behaviour of Python `int()` on a finite
float. -/
def pyTrunc (q : ℚ) : ℤ :=
  if 0 ≤ q then ⌊q⌋ else ⌈q⌉

/-! ## Faithful IEEE-754 binary64 rounding

Every finite double is an exact rational, so binary64 arithmetic can be
modelled exactly over ℚ: round each operation's exact real result to the
nearest representable double (round to nearest, ties to even).  This
model is used for the budget-allocation component values, where the
difference between exact and rounded products is the question itself. -/

/-- Binary digit count of a natural number (`⌊log₂ n⌋ + 1` for positive
`n`, `0` for `0`), written with an explicit fuel argument so that the
recursion is structural and the kernel can evaluate it; the number of
halvings needed is at most `n`. -/
def bitsAux : ℕ → ℕ → ℕ
  | 0, _ => 0
  | _ + 1, 0 => 0
  | fuel + 1, n + 1 => bitsAux fuel ((n + 1) / 2) + 1

/-- Binary digit count of a natural number. -/
def bits (n : ℕ) : ℕ := bitsAux n n

/-- `⌊log₂ q⌋` for a positive rational `q = a / b`: the digit counts of
`a` and `b` locate `q` within `(2 ^ (e₀ - 1), 2 ^ (e₀ + 1))` for
`e₀ = bits a - bits b`, and one comparison against `2 ^ e₀` settles
which of the two candidate exponents is the floor. -/
def floorLog2 (q : ℚ) : ℤ :=
  let e0 : ℤ := (bits q.num.natAbs : ℤ) - (bits q.den : ℤ)
  if q < (2 : ℚ) ^ e0 then e0 - 1 else e0

/-- Round a rational to the nearest integer, ties to even. -/
def roundNearestEven (m : ℚ) : ℤ :=
  let f := ⌊m⌋
  let r := m - (f : ℚ)
  if r < 1 / 2 then f
  else if 1 / 2 < r then f + 1
  else if f % 2 = 0 then f else f + 1

/-- Round a rational to the nearest IEEE-754 binary64 value (round to
nearest, ties to even), returned as the exact rational that double
denotes: the unit in the last place is
`2 ^ max (⌊log₂ |q|⌋ - 52) (-1074)`, covering normal and subnormal
numbers.  Overflow to infinity is not modelled: every magnitude arising
in this development is far below `2 ^ 1024`, where `fl` agrees with the
IEEE operation.  `fl q` is the value CPython stores for a float
expression whose exact real result is `q`. -/
def fl (q : ℚ) : ℚ :=
  if q = 0 then 0
  else
    let s : ℚ := if q < 0 then -1 else 1
    let a : ℚ := if q < 0 then -q else q
    let e : ℤ := max (floorLog2 a - 52) (-1074)
    s * ((roundNearestEven (a / (2 : ℚ) ^ e) : ℚ) * (2 : ℚ) ^ e)

/-- The four `budget_allocation` component values installed by `Ceo.py`
lines 442-445 (`ba.setdefault("rnd_research", budget * 0.15)` and the
three analogous lines), computed with faithful binary64 arithmetic: each
decimal literal is the nearest double (`fl (15 / 100)` is the double
written `0.15`, and so on) and each product `budget * literal` is
rounded once, exactly as CPython evaluates it.  The budget argument is
itself a double (it is `safe_float`'s output). -/
def budgetComponentsF (B : ℚ) : ℚ × ℚ × ℚ × ℚ :=
  (fl (B * fl (15 / 100)), fl (B * fl (25 / 100)),
    fl (B * fl (50 / 100)), fl (B * fl (10 / 100)))

/-! ## JSON values and Python dict semantics -/

/-- A JSON value as held by Python after `json` parsing: `null` is Python
`None`, objects are insertion-ordered dicts. -/
inductive JVal where
  | jnull
  | jbool (b : Bool)
  | jnum (x : PFloat)
  | jstr (s : String)
  | jarr (elems : List JVal)
  | jobj (fields : List (String × JVal))

/-- A Python dict with string keys holding JSON values, as an ordered
association list without duplicate keys. -/
abbrev Obj := List (String × JVal)

/-- Python truthiness of a JSON value (`bool(v)`). -/
def truthyJ : JVal → Bool
  | .jnull => false
  | .jbool b => b
  | .jnum x => x.truthy
  | .jstr s => s ≠ ""
  | .jarr xs => !xs.isEmpty
  | .jobj fs => !fs.isEmpty

/-- Python truthiness of `d.get(k)`: `None` (absent key) is falsy. -/
def truthyO : Option JVal → Bool
  | none => false
  | some v => truthyJ v

/-- `d.get(k)` / `k in d`: first-occurrence key lookup. -/
def oget : Obj → String → Option JVal
  | [], _ => none
  | (k', v) :: rest, k => if k' = k then some v else oget rest k

/-- `d[k] = v`: replace the value in place if the key is present,
otherwise append the new entry at the end (CPython dict insertion
order). -/
def oset : Obj → String → JVal → Obj
  | [], k, v => [(k, v)]
  | (k', w) :: rest, k, v =>
      if k' = k then (k, v) :: rest else (k', w) :: oset rest k v

/-- `d.setdefault(k, v)`: insert only when the key is absent (a present
key keeps its value even when that value is falsy). -/
def osetdefault (o : Obj) (k : String) (v : JVal) : Obj :=
  if (oget o k).isSome then o else o ++ [(k, v)]

/-- Two-level lookup `d[k1][k2]` for a nested object. -/
def oget2 (o : Obj) (k1 k2 : String) : Option JVal :=
  match oget o k1 with
  | some (.jobj inner) => oget inner k2
  | _ => none

/-! ## String helpers mirroring the Python `str` methods used -/

/-- Is `pat` a prefix of `s` (character lists)? -/
def isPrefixL : List Char → List Char → Bool
  | [], _ => true
  | _ :: _, [] => false
  | a :: as, b :: bs => a == b && isPrefixL as bs

/-- Does `pat` occur as a contiguous substring of `s` (character lists)?
Mirrors Python's `pat in s`. -/
def containsL (pat : List Char) : List Char → Bool
  | [] => pat.isEmpty
  | c :: rest => isPrefixL pat (c :: rest) || containsL pat rest

/-- `pat in s` on strings. -/
def strContains (s pat : String) : Bool :=
  containsL pat.data s.data

/-- Characters stripped by Python `str.strip()` with no argument
(ASCII whitespace suffices for the inputs of this code base). -/
def isPyWS (c : Char) : Bool :=
  c == ' ' || c == '\t' || c == '\n' || c == '\r' || c == '\x0b' || c == '\x0c'

/-- Python `str.strip()`. -/
def pyStrip (s : String) : String :=
  ⟨((s.data.dropWhile isPyWS).reverse.dropWhile isPyWS).reverse⟩

/-- Python `str.lower()` (per-character ASCII lowering; the keywords and
unit tokens of this code base are ASCII). -/
def lowerStr (s : String) : String :=
  ⟨s.data.map Char.toLower⟩

/-- One fuel-indexed pass of Python `s.replace(pat, "")`: delete every
non-overlapping left-to-right occurrence of `pat`.  The fuel starts at
the length of `s`; every step consumes at least one character, so the
fuel never runs out on the initial call. -/
def replaceEmptyAux (pat : List Char) : Nat → List Char → List Char
  | 0, s => s
  | _ + 1, [] => []
  | fuel + 1, c :: rest =>
      if isPrefixL pat (c :: rest) && !pat.isEmpty then
        replaceEmptyAux pat fuel (List.drop (pat.length - 1) rest)
      else
        c :: replaceEmptyAux pat fuel rest

/-- Python `s.replace(pat, "")`. -/
def pyReplaceEmpty (s pat : String) : String :=
  ⟨replaceEmptyAux pat.data s.data.length s.data⟩

/-- Python `s.split(sep)` for a one-character separator (the code only
splits on `","`): `"".split(",") = [""]`, separators are not merged. -/
def pySplit (s : String) (sep : Char) : List String :=
  (splitAux s.data sep).map (fun l => ⟨l⟩)
where
  splitAux : List Char → Char → List (List Char)
    | [], _ => [[]]
    | c :: rest, sep =>
        if c == sep then
          [] :: splitAux rest sep
        else
          match splitAux rest sep with
          | [] => [[c]]
          | h :: t => (c :: h) :: t

/-! ## Python `float(str)` parsing -/

/-- Numeric value of a digit run. -/
def digitsVal (l : List Char) : ℚ :=
  l.foldl (fun a c => a * 10 + ((c.toNat - '0'.toNat : ℕ) : ℚ)) 0

/-- Parse the exponent suffix (`e`/`E` already consumed by the caller is
not assumed: `l` here is what remains after the mantissa; empty means no
exponent). -/
def parseExpSuffix (base : ℚ) (l : List Char) : Option ℚ :=
  match l with
  | [] => some base
  | e :: r =>
      if e == 'e' then
        let (negExp, r') :=
          match r with
          | '+' :: r' => (false, r')
          | '-' :: r' => (true, r')
          | _ => (false, r)
        let ds := r'.takeWhile Char.isDigit
        let rest := r'.dropWhile Char.isDigit
        if ds.isEmpty || !rest.isEmpty then none
        else
          let ex : ℕ := (digitsVal ds).num.toNat
          some (if negExp then base / (10 : ℚ) ^ ex else base * (10 : ℚ) ^ ex)
      else none

/-- Parse an unsigned decimal literal (`123`, `1.5`, `.5`, `5.`,
optionally with an exponent). -/
def parseDecimal (l : List Char) : Option ℚ :=
  let ip := l.takeWhile Char.isDigit
  let r1 := l.dropWhile Char.isDigit
  match r1 with
  | '.' :: r2 =>
      let fp := r2.takeWhile Char.isDigit
      let r3 := r2.dropWhile Char.isDigit
      if ip.isEmpty && fp.isEmpty then none
      else parseExpSuffix (digitsVal ip + digitsVal fp / (10 : ℚ) ^ fp.length) r3
  | _ =>
      if ip.isEmpty then none else parseExpSuffix (digitsVal ip) r1

/-- Python `float(s)`: strips surrounding whitespace, accepts an optional
sign, recognizes `inf`/`infinity`/`nan` case-insensitively, otherwise
parses a decimal literal.  Returns `none` where Python raises
`ValueError`. -/
def parseFloat (s : String) : Option PFloat :=
  let t := (lowerStr (pyStrip s)).data
  let (neg, u) :=
    match t with
    | '+' :: u => (false, u)
    | '-' :: u => (true, u)
    | _ => (false, t)
  if u = "inf".data || u = "infinity".data then
    some (if neg then .neginf else .inf)
  else if u = "nan".data then
    some .nan
  else
    (parseDecimal u).map (fun q => .finite (if neg then -q else q))

/-! ## `safe_float` (Ceo.py lines 137-156) -/

/-- `safe_float(value, default=100000)` from `Ceo.py`.  The argument is
`requirements.get("budget")`: `none` is an absent key, `some .jnull` is an
explicit JSON `null` (both are Python `None`); Python `bool` is an `int`
subclass, so booleans take the numeric branch. -/
def safe_float (value : Option JVal) (default : ℚ := 100000) : PFloat :=
  match value with
  | none => .finite default
  | some .jnull => .finite default
  | some (.jnum x) => x
  | some (.jbool b) => .finite (if b then 1 else 0)
  | some (.jstr s) =>
      let v := lowerStr (pyStrip s)
      if strContains v "lkh" || strContains v "lakh" then
        match parseFloat (pyStrip (pyReplaceEmpty (pyReplaceEmpty v "lkh") "lakh")) with
        | some x => x.mulQ 100000
        | none => .finite default
      else if strContains v "cr" || strContains v "crore" then
        match parseFloat (pyStrip (pyReplaceEmpty (pyReplaceEmpty v "cr") "crore")) with
        | some x => x.mulQ 10000000
        | none => .finite default
      else
        match parseFloat v with
        | some x => x
        | none => .finite default
  | some _ => .finite default

/-! ## Python exceptions -/

/-- A raised Python exception, carrying `str(e)`. -/
inductive Err where
  /-- The exception raised by the LLM call itself (network/auth/timeout);
  re-raised unchanged by `analyze_requirements`. -/
  | llmError (msg : String)
  /-- `TypeError`, e.g. item assignment on a non-dict. -/
  | typeError (msg : String)
  /-- `AttributeError`, e.g. `.split` on a non-string. -/
  | attributeError (msg : String)
  /-- `OverflowError` from `int()` on an infinite float. -/
  | overflowError (msg : String)
  /-- `ValueError` from `int()` on a NaN float. -/
  | valueError (msg : String)
deriving DecidableEq, Repr

/-- `str(e)` of a raised exception. -/
def Err.str : Err → String
  | .llmError m => m
  | .typeError m => m
  | .attributeError m => m
  | .overflowError m => m
  | .valueError m => m

/-- Python `int()` on a float: truncation toward zero on finite values,
`OverflowError` on `±inf`, `ValueError` on `nan`. -/
def pyInt : PFloat → Except Err ℤ
  | .finite q => .ok (pyTrunc q)
  | .inf => .error (.overflowError "cannot convert float infinity to integer")
  | .neginf => .error (.overflowError "cannot convert float infinity to integer")
  | .nan => .error (.valueError "cannot convert float NaN to integer")

/-! ## f-string rendering

Python `str()` of a value interpolated into an f-string.  Scalar values
follow Python `str`; composite values get a bracketed bounded-depth
rendering standing in for Python `repr` (no claim under verification
inspects a default string built from a composite value, and the finite
float rendering is the idealized `num/den` form). -/

/-- Bounded-depth rendering of a JSON value as interpolated by an
f-string. -/
def pyReprF : Nat → JVal → String
  | _, .jnull => "None"
  | _, .jbool true => "True"
  | _, .jbool false => "False"
  | _, .jnum (.finite q) =>
      if q.den = 1 then toString q.num ++ ".0"
      else toString q.num ++ "/" ++ toString q.den
  | _, .jnum .inf => "inf"
  | _, .jnum .neginf => "-inf"
  | _, .jnum .nan => "nan"
  | 0, .jstr s => s
  | 0, .jarr _ => "[...]"
  | 0, .jobj _ => "\x7b...\x7d"
  | _ + 1, .jstr s => s
  | fuel + 1, .jarr xs =>
      "[" ++ String.intercalate ", " (xs.map (pyReprF fuel)) ++ "]"
  | fuel + 1, .jobj fs =>
      "\x7b" ++ String.intercalate ", " (fs.map (fun p => p.1 ++ ": " ++ pyReprF fuel p.2)) ++ "\x7d"

/-- `str(v)` for an f-string interpolation. -/
def pyStr (v : JVal) : String := pyReprF 64 v

/-- `str(requirements.get(k, d))` rendering: the fallback string `d` when
the key is absent. -/
def pyStrD (v : Option JVal) (d : String) : String :=
  match v with
  | none => d
  | some w => pyStr w

/-! ## The plan validator/repairer (`Ceo.py` lines 386-485)

`Ceo._validate_and_fix_plan(plan, requirements, insights)` is embedded as
a pipeline of the source's in-place mutations, in source order; a Python
`insights=None` default or `{}` is the empty `Obj`. -/

/-- Does `plan` need the default at `key`?  Mirrors
`if key not in plan or not plan[key]` (Ceo.py line 410). -/
def needsDefault (plan : Obj) (key : String) : Bool :=
  match oget plan key with
  | none => true
  | some v => !truthyJ v

/-- The `for key, default_value in defaults.items()` loop (Ceo.py lines
409-411). -/
def applyDefaults (plan : Obj) (ds : List (String × JVal)) : Obj :=
  ds.foldl (fun p kv => if needsDefault p kv.1 then oset p kv.1 kv.2 else p) plan

/-- The `defaults` dict literal (Ceo.py lines 398-407), given the already
computed `channels_priority` default. -/
def defaultsList (reqs : Obj) (channelsDefault : JVal) : List (String × JVal) :=
  [("project_name",
      .jstr (pyStrD (oget reqs "product_service") "Campaign" ++ " Strategic Plan")),
   ("strategy_summary",
      .jstr "Multi-channel marketing campaign with data-driven approach."),
   ("executive_summary",
      .jstr ("Comprehensive marketing campaign for "
        ++ pyStrD (oget reqs "product_service") "None" ++ " targeting "
        ++ pyStrD (oget reqs "target_audience") "None" ++ ".")),
   ("channels_priority", channelsDefault),
   ("timeline_days", .jnum (.finite 14)),
   ("should_trigger_rnd", .jbool true),
   ("should_trigger_marketing", .jbool true),
   ("success_probability", .jstr "Medium")]

/-- Building the `defaults` dict (Ceo.py lines 398-407) and running the
fill loop.  The `channels_priority` entry raises `AttributeError` when the
requirements hold a truthy non-string under `"channels"`, exactly as the
list comprehension `requirements.get("channels", "").split(",")` does. -/
def defaultsStep (plan reqs : Obj) : Except Err Obj := do
  let channelsDefault : JVal ←
    match oget reqs "channels" with
    | some v =>
        if truthyJ v then
          match v with
          | .jstr s =>
              pure (JVal.jarr ((pySplit s ',').map (fun c => JVal.jstr (pyStrip c))))
          | _ => throw (.attributeError "object has no attribute split")
        else
          pure (JVal.jarr [.jstr "LinkedIn", .jstr "YouTube"])
    | none => pure (JVal.jarr [.jstr "LinkedIn", .jstr "YouTube"])
  pure (applyDefaults plan (defaultsList reqs channelsDefault))

/-- The fixed 3-phase fallback template (Ceo.py lines 414-439). -/
def phaseTemplate : JVal :=
  .jarr [
    .jobj [("name", .jstr "Research & Planning"),
           ("duration_days", .jnum (.finite 3)),
           ("deliverables", .jarr [.jstr "Strategy document"]),
           ("owner", .jstr "R&D"),
           ("dependencies", .jarr []),
           ("milestone", .jbool true)],
    .jobj [("name", .jstr "Content Creation"),
           ("duration_days", .jnum (.finite 5)),
           ("deliverables", .jarr [.jstr "Creative assets"]),
           ("owner", .jstr "Marketing"),
           ("dependencies", .jarr [.jstr "Research & Planning"]),
           ("milestone", .jbool true)],
    .jobj [("name", .jstr "Campaign Execution"),
           ("duration_days", .jnum (.finite 6)),
           ("deliverables", .jarr [.jstr "Live campaign", .jstr "Performance report"]),
           ("owner", .jstr "Marketing"),
           ("dependencies", .jarr [.jstr "Content Creation"]),
           ("milestone", .jbool true)]]

/-- `if not isinstance(plan.get("phases"), list) or len(plan["phases"]) < 3`
(Ceo.py line 413): holds when `phases` is absent, not a list, or shorter
than 3. -/
def phasesDefective (plan : Obj) : Bool :=
  match oget plan "phases" with
  | some (.jarr xs) => xs.length < 3
  | _ => true

/-- The phase repair (Ceo.py lines 413-439): wholesale replacement by the
template, or no change at all. -/
def phasesStep (plan : Obj) : Obj :=
  if phasesDefective plan then oset plan "phases" phaseTemplate else plan

/-- The `ba.setdefault(...)` chain and total re-stamp applied to the
current `budget_allocation` dict (Ceo.py lines 442-446). -/
def baDefaults (ba : Obj) (budget : PFloat) : Obj :=
  oset (osetdefault (osetdefault (osetdefault (osetdefault ba
    "rnd_research" (.jnum (budget.mulQ (15 / 100))))
    "content_creation" (.jnum (budget.mulQ (25 / 100))))
    "ads_paid" (.jnum (budget.mulQ (50 / 100))))
    "tools_tech" (.jnum (budget.mulQ (10 / 100))))
    "total" (.jnum budget)

/-- `budget_allocation` component fill and total re-stamp (Ceo.py lines
441-447).  `plan.get("budget_allocation", {})` is the dict installed by
the opening lines of the validator, so the non-dict arm below is
unreachable on any successful run; Python would raise `AttributeError` at
`.setdefault` there and so does the embedding. -/
def budgetComponentsStep (plan : Obj) (budget : PFloat) : Except Err Obj :=
  match (oget plan "budget_allocation").getD (.jobj []) with
  | .jobj ba => pure (oset plan "budget_allocation" (.jobj (baDefaults ba budget)))
  | _ => throw (.attributeError "object has no attribute setdefault")

/-- The `kpi.setdefault(...)` chain (Ceo.py lines 453-456) given the two
integers computed from the budget. -/
def kpiDefaults (kpi : Obj) (leadsDefault cac : ℤ) : Obj :=
  osetdefault (osetdefault (osetdefault (osetdefault kpi
    "leads" (.jnum (.finite (leadsDefault : ℚ))))
    "conversion_rate" (.jstr "3-5%"))
    "roi_expected" (.jstr "2-3x"))
    "cac_target" (.jstr ("₹" ++ toString cac))

/-- `kpi_targets` field-by-field fill (Ceo.py lines 449-456): ensure the
key holds a dict, then run the `setdefault` chain on it (`kpi` aliases
`plan["kpi_targets"]`, rendered here as an explicit write-back).  Python
evaluates every `setdefault` argument eagerly, so `int(budget / 1000)`
runs (and raises on a non-finite budget) even when the key is present. -/
def kpiStep (plan : Obj) (budget : PFloat) : Except Err Obj := do
  let (plan, kpi) :=
    match oget plan "kpi_targets" with
    | some (.jobj km) => (plan, km)
    | _ => (oset plan "kpi_targets" (.jobj []), ([] : Obj))
  let leadsQuot ← pyInt (budget.divQ 1000)
  let leadsDefault : ℤ := max 10 leadsQuot
  let cacQuot ← pyInt (budget.divQ 1000)
  let cac ← pyInt (budget.divQ ((max 10 cacQuot : ℤ) : ℚ))
  pure (oset plan "kpi_targets" (.jobj (kpiDefaults kpi leadsDefault cac)))

/-- The `risk_assessment` inner fill (Ceo.py lines 462-466): `high` and
`medium` are replaced when falsy (`if not ra.get(...)`), `mitigation`
only when the key is absent. -/
def riskFix (ra : Obj) : Obj :=
  let ra :=
    if truthyO (oget ra "high") then ra
    else oset ra "high" (.jarr [.jstr "Timeline constraints", .jstr "Budget limitations"])
  let ra :=
    if truthyO (oget ra "medium") then ra
    else oset ra "medium" (.jarr [.jstr "Audience targeting", .jstr "Market competition"])
  osetdefault ra "mitigation" (.jstr "Daily optimization, A/B testing, continuous monitoring")

/-- `risk_assessment` fill (Ceo.py lines 458-466). -/
def riskStep (plan : Obj) : Obj :=
  let (plan, ra) :=
    match oget plan "risk_assessment" with
    | some (.jobj rm) => (plan, rm)
    | _ => (oset plan "risk_assessment" (.jobj []), ([] : Obj))
  oset plan "risk_assessment" (.jobj (riskFix ra))

/-- The `rnd.setdefault(...)` chain (Ceo.py lines 472-474). -/
def rndFix (rnd : Obj) : Obj :=
  osetdefault (osetdefault (osetdefault rnd
    "research_topics" (.jarr [.jstr "Market analysis", .jstr "Competitor research"]))
    "competitor_analysis" (.jbool true))
    "market_research" (.jbool true)

/-- `rnd_params` fill (Ceo.py lines 468-474). -/
def rndStep (plan : Obj) : Obj :=
  let (plan, rnd) :=
    match oget plan "rnd_params" with
    | some (.jobj rm) => (plan, rm)
    | _ => (oset plan "rnd_params" (.jobj []), ([] : Obj))
  oset plan "rnd_params" (.jobj (rndFix rnd))

/-- The `mp.setdefault(...)` chain (Ceo.py lines 480-482). -/
def mpFix (mp reqs : Obj) (budget : PFloat) : Obj :=
  osetdefault (osetdefault (osetdefault mp
    "campaign_type" (.jstr "Awareness + Lead Generation"))
    "creative_brief" (.jstr ("Create " ++ pyStrD (oget reqs "goals") "None" ++ " for "
      ++ pyStrD (oget reqs "product_service") "None")))
    "ad_budget" (.jnum (budget.mulQ (50 / 100)))

/-- `marketing_params` fill (Ceo.py lines 476-482). -/
def marketingStep (plan reqs : Obj) (budget : PFloat) : Obj :=
  let (plan, mp) :=
    match oget plan "marketing_params" with
    | some (.jobj mm) => (plan, mm)
    | _ => (oset plan "marketing_params" (.jobj []), ([] : Obj))
  oset plan "marketing_params" (.jobj (mpFix mp reqs budget))

/-- `if "budget_allocation" not in plan: plan["budget_allocation"] = {}`
(Ceo.py lines 390-391). -/
def ensureBA (plan : Obj) : Obj :=
  if (oget plan "budget_allocation").isSome then plan
  else oset plan "budget_allocation" (.jobj [])

/-- `plan["budget_allocation"]["total"] = budget` (Ceo.py line 393) once
the current value is known to be the dict `ba`. -/
def stampTotal (plan ba : Obj) (budget : PFloat) : Obj :=
  oset plan "budget_allocation" (.jobj (oset ba "total" (.jnum budget)))

/-- `if insights: plan["conversation_insights"] = insights` (Ceo.py lines
395-396); an empty `Obj` is a falsy (`None` or `{}`) insights argument. -/
def stampInsights (plan insights : Obj) : Obj :=
  if insights.isEmpty then plan
  else oset plan "conversation_insights" (.jobj insights)

/-- `plan["budget_allocation"]["total"] = budget` (Ceo.py line 393): the
item assignment raises `TypeError` when the model supplied a non-dict
under `budget_allocation`. -/
def totalStep (plan : Obj) (budget : PFloat) : Except Err Obj :=
  match oget plan "budget_allocation" with
  | some (.jobj ba) => pure (stampTotal plan ba budget)
  | _ => throw (.typeError "object does not support item assignment")

/-- `CEOAgent._validate_and_fix_plan(plan, requirements, insights)`
(Ceo.py lines 386-485). -/
def validate_and_fix_plan (plan reqs insights : Obj) : Except Err Obj := do
  let budget := safe_float (oget reqs "budget")
  let plan ← totalStep (ensureBA plan) budget
  let plan := stampInsights plan insights
  let plan ← defaultsStep plan reqs
  let plan := phasesStep plan
  let plan ← budgetComponentsStep plan budget
  let plan ← kpiStep plan budget
  let plan := riskStep plan
  let plan := rndStep plan
  pure (marketingStep plan reqs budget)

/-! ## The orchestration layer (`Ceo.py` lines 161-384, `main.py`)

The two LLM invocations are oracles supplied as parameters. -/

/-- Outcome of one LLM chain invocation: a successfully parsed JSON
object, or a raised exception whose `str` is `msg`. -/
inductive LLMResult where
  | ok (payload : Obj)
  | fail (msg : String)

/-- The fixed insights object returned for an empty message history
(Ceo.py lines 167-176). -/
def noHistoryInsights : Obj :=
  [("customer_tone", .jstr "neutral"),
   ("pain_points", .jarr [.jstr "Limited information provided"]),
   ("unspoken_needs", .jarr [.jstr "Market validation"]),
   ("urgency_level", .jstr "medium"),
   ("budget_flexibility", .jstr "unknown"),
   ("market_context", .jstr "No conversation history"),
   ("recommendations", .jarr [.jstr "Collect more market data"])]

/-- The fixed insights object returned when the insight analysis call or
its parse raises (Ceo.py lines 216-224). -/
def analysisFailedInsights : Obj :=
  [("customer_tone", .jstr "neutral"),
   ("pain_points", .jarr [.jstr "Analysis failed"]),
   ("unspoken_needs", .jarr [.jstr "Needs assessment"]),
   ("urgency_level", .jstr "medium"),
   ("budget_flexibility", .jstr "unknown"),
   ("market_context", .jstr "Conversation analyzed"),
   ("recommendations", .jarr [.jstr "Proceed with standard approach"])]

/-- `CEOAgent._extract_conversation_insights(messages)` (Ceo.py lines
165-224): empty history short-circuits to the fixed object without
consulting the model; otherwise the model's parsed output is returned,
with any exception swallowed into the analysis-failed object. -/
def extract_conversation_insights (messages : List Obj) (oracle : LLMResult) : Obj :=
  if messages.isEmpty then noHistoryInsights
  else
    match oracle with
    | .ok o => o
    | .fail _ => analysisFailedInsights

/-- `CEOAgent.analyze_requirements(requirements, messages)` (Ceo.py lines
226-384).  `insightsOracle` backs the insight-extraction call (consulted
only when `messages` is non-empty), `planOracle` the plan-generation
call.  The prompt anchors `int(budget * p)`, `int(budget / 1000)` and the
CAC target are computed before the model call and can raise on a
non-finite budget; a failed model call re-raises its exception unchanged
(`raise` in the `except` block at line 384). -/
def analyze_requirements (reqs : Obj) (messages : List Obj)
    (insightsOracle planOracle : LLMResult) : Except Err Obj := do
  let budget := safe_float (oget reqs "budget")
  let insights : Obj :=
    if messages.isEmpty then [] else extract_conversation_insights messages insightsOracle
  let _ ← pyInt (budget.mulQ (15 / 100))
  let _ ← pyInt (budget.mulQ (25 / 100))
  let _ ← pyInt (budget.mulQ (50 / 100))
  let _ ← pyInt (budget.mulQ (10 / 100))
  let leadsQuot ← pyInt (budget.divQ 1000)
  let _ ← pyInt (budget.divQ ((max 10 leadsQuot : ℤ) : ℚ))
  let _ ← pyInt budget
  match planOracle with
  | .fail m => throw (.llmError m)
  | .ok plan => validate_and_fix_plan plan reqs insights

/-- An HTTP error response produced by `fastapi.HTTPException`. -/
structure HTTPError where
  status : ℕ
  detail : String
deriving DecidableEq, Repr

/-- `POST /api/v1/ceo/analyze` (main.py lines 100-154).  The handler
passes only the requirements to the agent — `messages` is never
forwarded, so the insight path is never taken for this route.  Every
exception is surfaced as HTTP 500 with detail
`"CEO Analysis failed: " + str(e)` (the full message; the 150-character
truncation at Ceo.py line 381 only feeds the log).  File persistence is
outside the embedding; `ts` stands for `int(datetime.now().timestamp())`. -/
def ceo_analyze (reqs : Obj) (conversationId : Option String) (ts : ℕ)
    (insightsOracle planOracle : LLMResult) : Except HTTPError Obj :=
  let convId := conversationId.getD ("proj_" ++ toString ts)
  match analyze_requirements reqs [] insightsOracle planOracle with
  | .error e => .error ⟨500, "CEO Analysis failed: " ++ e.str⟩
  | .ok plan =>
      if truthyJ (.jobj plan) then
        .ok [("status", .jstr "success"),
             ("project_id", .jstr convId),
             ("conversation_id", .jstr convId),
             ("plan", .jobj plan),
             ("rnd_trigger", (oget plan "should_trigger_rnd").getD (.jbool false)),
             ("marketing_trigger", (oget plan "should_trigger_marketing").getD (.jbool false)),
             ("success_probability", (oget plan "success_probability").getD (.jstr "Medium"))]
      else
        .error ⟨500, "CEO Analysis failed: CEO Agent returned empty plan"⟩

/-! ## The customer intake agent (`customer.py`) -/

/-- The six requirement fields with their presence markers
(`customer.py` lines 78-90): each value is `"mentioned"` or `None`. -/
structure Requirements where
  product_service : Option String
  target_audience : Option String
  budget : Option String
  timeline : Option String
  channels : Option String
  goals : Option String
deriving DecidableEq, Repr

/-- Keyword sets of `extract_requirements_from_text` (customer.py lines
83-89). -/
def productKeywords : List String :=
  ["product", "service", "sell", "launch", "ashwagandha", "supplement"]

def audienceKeywords : List String :=
  ["target", "audience", "customer", "professional", "age", "students", "parents"]

def budgetKeywords : List String :=
  ["budget", "₹", "lakh", "crore", "rs", "rupee", "price", "spend"]

def timelineKeywords : List String :=
  ["week", "month", "timeline", "when", "launch", "start", "duration"]

def channelsKeywords : List String :=
  ["instagram", "insta", "linkedin", "email", "youtube", "facebook", "social"]

def goalsKeywords : List String :=
  ["lead", "leads", "sale", "sales", "awareness", "signup", "conversion"]

/-- The inner `present(words)` helper: `"mentioned"` iff any keyword is a
substring of the lowered text. -/
def presentKw (words : List String) (t : String) : Option String :=
  if words.any (fun w => containsL w.data t.data) then some "mentioned" else none

/-- `extract_requirements_from_text(text)` (customer.py lines 78-90). -/
def extract_requirements_from_text (text : String) : Requirements :=
  let t := lowerStr text
  { product_service := presentKw productKeywords t,
    target_audience := presentKw audienceKeywords t,
    budget := presentKw budgetKeywords t,
    timeline := presentKw timelineKeywords t,
    channels := presentKw channelsKeywords t,
    goals := presentKw goalsKeywords t }

/-- Number of collected fields (`sum(1 for v in reqs.values() if v)`;
every present value is the truthy string `"mentioned"`). -/
def collectedCount (r : Requirements) : ℕ :=
  [r.product_service, r.target_audience, r.budget,
   r.timeline, r.channels, r.goals].countP Option.isSome

/-- `compute_completeness(reqs)` (customer.py lines 92-94). -/
def compute_completeness (r : Requirements) : ℚ :=
  (collectedCount r : ℚ) / 6

/-! ## `GET /api/v1/customer/ready/{id}` (main.py lines 76-84)

The handler body is `customer_agent.is_ready_for_ceo(conversation_id)`.
Resolving that attribute on the module object precedes any call, and the
module `Backend/agents/customer.py` defines no such name, so every
request raises `AttributeError`; the handler's `except KeyError` arm does
not match and the generic `except Exception` arm turns it into HTTP
500. -/

/-- The top-level names defined by `Backend/agents/customer.py`. -/
def customerModuleAttrs : List String :=
  ["os", "uuid", "datetime", "load_dotenv", "GROQ_API_KEY", "llm",
   "SYSTEM_PROMPT", "prompt", "ConversationStore", "store",
   "extract_requirements_from_text", "compute_completeness",
   "ConversationState", "intake_agent", "builder", "graph",
   "process_customer_message", "get_conversation", "export_for_ceo"]

/-- Python attribute lookup on the customer module. -/
def lookupCustomerAttr (name : String) : Option String :=
  if customerModuleAttrs.contains name then some name else none

/-- The `/api/v1/customer/ready/{conversation_id}` handler.  The
conversation store is irrelevant: the `AttributeError` fires before the
store could be consulted. -/
def customer_ready_for_ceo (conversationId : String) : Except HTTPError JVal :=
  match lookupCustomerAttr "is_ready_for_ceo" with
  | some _ =>
      -- Unreachable: `is_ready_for_ceo` is not among the module's names.
      .ok .jnull
  | none =>
      .error ⟨500, "module Backend.agents.customer has no attribute is_ready_for_ceo"⟩

/-! ## Dict lemmas -/

theorem oget_nil (k : String) : oget [] k = none := rfl

theorem oget_cons (a : String) (b : JVal) (rest : Obj) (k : String) :
    oget ((a, b) :: rest) k = if a = k then some b else oget rest k := rfl

theorem oset_cons (a : String) (b : JVal) (rest : Obj) (k : String) (v : JVal) :
    oset ((a, b) :: rest) k v =
      if a = k then (k, v) :: rest else (a, b) :: oset rest k v := rfl

theorem oget_oset_self (o : Obj) (k : String) (v : JVal) :
    oget (oset o k v) k = some v := by
  induction o with
  | nil => simp [oset, oget_cons]
  | cons p rest ih =>
      obtain ⟨a, b⟩ := p
      by_cases h : a = k
      · simp [oset_cons, h, oget_cons]
      · simp [oset_cons, h, oget_cons, ih]

theorem oget_oset_ne (o : Obj) {k k' : String} (v : JVal) (h : k' ≠ k) :
    oget (oset o k v) k' = oget o k' := by
  induction o with
  | nil => simp [oset, oget_cons, oget_nil, Ne.symm h]
  | cons p rest ih =>
      obtain ⟨a, b⟩ := p
      by_cases hp : a = k
      · subst hp
        simp [oset_cons, oget_cons, Ne.symm h]
      · by_cases hp' : a = k'
        · simp [oset_cons, hp, oget_cons, hp', h]
        · simp [oset_cons, hp, oget_cons, hp', ih]

theorem oset_eq_self {o : Obj} {k : String} {v : JVal} (h : oget o k = some v) :
    oset o k v = o := by
  induction o with
  | nil => simp [oget_nil] at h
  | cons p rest ih =>
      obtain ⟨a, b⟩ := p
      by_cases hp : a = k
      · rw [oget_cons, if_pos hp] at h
        cases h
        subst hp
        simp [oset_cons]
      · rw [oget_cons, if_neg hp] at h
        simp [oset_cons, hp, ih h]

theorem oget_append_of_none {o : Obj} {k : String} (o₂ : Obj) (h : oget o k = none) :
    oget (o ++ o₂) k = oget o₂ k := by
  induction o with
  | nil => simp
  | cons p rest ih =>
      obtain ⟨a, b⟩ := p
      rw [oget_cons] at h
      by_cases hp : a = k
      · rw [if_pos hp] at h; cases h
      · rw [if_neg hp] at h
        simpa [oget_cons, hp] using ih h

theorem oget_append_of_some {o : Obj} {k : String} {v : JVal} (o₂ : Obj)
    (h : oget o k = some v) : oget (o ++ o₂) k = some v := by
  induction o with
  | nil => simp [oget_nil] at h
  | cons p rest ih =>
      obtain ⟨a, b⟩ := p
      rw [oget_cons] at h
      by_cases hp : a = k
      · rw [if_pos hp] at h
        simp [oget_cons, hp, h]
      · rw [if_neg hp] at h
        simpa [oget_cons, hp] using ih h

theorem osetdefault_of_isSome {o : Obj} {k : String} (v : JVal)
    (h : (oget o k).isSome) : osetdefault o k v = o := by
  simp [osetdefault, h]

theorem oget_osetdefault_self (o : Obj) (k : String) (v : JVal) :
    oget (osetdefault o k v) k = some ((oget o k).getD v) := by
  unfold osetdefault
  cases h : oget o k with
  | none => simp [h, oget_append_of_none _ h, oget_cons]
  | some w => simp [h]

theorem oget_osetdefault_ne (o : Obj) {k k' : String} (v : JVal) (h : k' ≠ k) :
    oget (osetdefault o k v) k' = oget o k' := by
  unfold osetdefault
  cases hk : oget o k with
  | some w => simp
  | none =>
      simp only [hk, Option.isSome_none, Bool.false_eq_true, if_false]
      cases h' : oget o k' with
      | none => simp [oget_append_of_none _ h', oget_cons, Ne.symm h, oget_nil, h']
      | some w => simp [oget_append_of_some _ h']

theorem oget_osetdefault_isSome (o : Obj) (k : String) (v : JVal) :
    (oget (osetdefault o k v) k).isSome := by
  simp [oget_osetdefault_self]

theorem oget_osetdefault_isSome_mono {o : Obj} {k' : String} (k : String) (v : JVal)
    (h : (oget o k').isSome) : (oget (osetdefault o k v) k').isSome := by
  by_cases hk : k' = k
  · subst hk; simp [oget_osetdefault_self]
  · simp [oget_osetdefault_ne o v hk, h]

theorem oget_oset_isSome_mono {o : Obj} {k' : String} (k : String) (v : JVal)
    (h : (oget o k').isSome) : (oget (oset o k v) k').isSome := by
  by_cases hk : k' = k
  · subst hk; simp [oget_oset_self]
  · simp [oget_oset_ne o v hk, h]

/-! ## `applyDefaults` lemmas -/

theorem applyDefaults_nil (p : Obj) : applyDefaults p [] = p := rfl

theorem applyDefaults_cons (p : Obj) (kv : String × JVal) (ds : List (String × JVal)) :
    applyDefaults p (kv :: ds) =
      applyDefaults (if needsDefault p kv.1 then oset p kv.1 kv.2 else p) ds := rfl

theorem needsDefault_eq_false_of_truthy {p : Obj} {k : String}
    (h : truthyO (oget p k) = true) : needsDefault p k = false := by
  unfold needsDefault
  cases ho : oget p k with
  | none => rw [ho] at h; simp [truthyO] at h
  | some v =>
      rw [ho] at h
      simp only [truthyO] at h
      simp [h]

theorem oget_applyDefaults_ne {ds : List (String × JVal)} (p : Obj) {k : String}
    (h : ∀ q ∈ ds, q.1 ≠ k) : oget (applyDefaults p ds) k = oget p k := by
  induction ds generalizing p with
  | nil => rfl
  | cons kv ds ih =>
      rw [applyDefaults_cons]
      rw [ih _ (fun q hq => h q (List.mem_cons_of_mem _ hq))]
      by_cases hnd : needsDefault p kv.1
      · rw [if_pos hnd]
        exact oget_oset_ne p kv.2 (Ne.symm (h kv (List.mem_cons_self _ _)))
      · rw [if_neg hnd]

theorem oget_applyDefaults_truthy {ds : List (String × JVal)} (p : Obj) {k : String}
    (h : truthyO (oget p k) = true) : oget (applyDefaults p ds) k = oget p k := by
  induction ds generalizing p with
  | nil => rfl
  | cons kv ds ih =>
      rw [applyDefaults_cons]
      by_cases hk : kv.1 = k
      · rw [hk, needsDefault_eq_false_of_truthy h]
        simp only [Bool.false_eq_true, if_false]
        exact ih p h
      · by_cases hnd : needsDefault p kv.1
        · rw [if_pos hnd]
          have hp : oget (oset p kv.1 kv.2) k = oget p k :=
            oget_oset_ne p kv.2 (fun hh => hk hh.symm)
          rw [ih _ (by rw [hp]; exact h), hp]
        · rw [if_neg hnd]
          exact ih p h

theorem oget_applyDefaults_mem {ds : List (String × JVal)} (p : Obj) {k : String}
    (hmem : k ∈ ds.map Prod.fst) (hts : ∀ q ∈ ds, truthyJ q.2 = true) :
    truthyO (oget (applyDefaults p ds) k) = true := by
  induction ds generalizing p with
  | nil => simp at hmem
  | cons kv ds ih =>
      rw [applyDefaults_cons]
      by_cases hk : kv.1 = k
      · have step :
            truthyO (oget (if needsDefault p kv.1 then oset p kv.1 kv.2 else p) k) = true := by
          by_cases hnd : needsDefault p kv.1
          · rw [if_pos hnd, ← hk, oget_oset_self]
            simpa [truthyO] using hts kv (List.mem_cons_self _ _)
          · rw [if_neg hnd]
            unfold needsDefault at hnd
            cases ho : oget p kv.1 with
            | none => rw [ho] at hnd; simp at hnd
            | some v =>
                rw [ho] at hnd
                simp only [Bool.not_eq_true', Bool.not_eq_false] at hnd
                rw [← hk, ho]
                simpa [truthyO] using hnd
        rw [oget_applyDefaults_truthy _ step]
        exact step
      · have hmem' : k ∈ ds.map Prod.fst := by
          rcases List.mem_map.mp hmem with ⟨q, hq, hq1⟩
          rcases List.mem_cons.mp hq with rfl | hqt
          · exact absurd hq1 hk
          · exact List.mem_map.mpr ⟨q, hqt, hq1⟩
        exact ih _ hmem' (fun q hq => hts q (List.mem_cons_of_mem _ hq))

theorem applyDefaults_noop {ds : List (String × JVal)} {p : Obj}
    (h : ∀ q ∈ ds, truthyO (oget p q.1) = true) : applyDefaults p ds = p := by
  induction ds with
  | nil => rfl
  | cons kv ds ih =>
      rw [applyDefaults_cons,
        needsDefault_eq_false_of_truthy (h kv (List.mem_cons_self _ _))]
      simp only [Bool.false_eq_true, if_false]
      exact ih (fun q hq => h q (List.mem_cons_of_mem _ hq))

/-! ## Truthiness of the computed defaults -/

theorem append_ne_empty_right (a : String) {b : String} (hb : b ≠ "") :
    a ++ b ≠ "" := by
  intro h
  apply hb
  have hd : (a ++ b).data = ([] : List Char) := by rw [h]
  rw [String.data_append] at hd
  rcases List.append_eq_nil.mp hd with ⟨-, hb'⟩
  cases b
  simp_all

theorem truthyJ_jstr_append (a : String) {b : String} (hb : b ≠ "") :
    truthyJ (.jstr (a ++ b)) = true := by
  simp [truthyJ, append_ne_empty_right a hb]

theorem pySplit_splitAux_ne_nil (l : List Char) (sep : Char) :
    pySplit.splitAux l sep ≠ [] := by
  induction l with
  | nil => simp [pySplit.splitAux]
  | cons ch rest ih =>
      unfold pySplit.splitAux
      by_cases h : (ch == sep) = true
      · simp [h]
      · simp only [h, Bool.false_eq_true, if_false]
        cases hsa : pySplit.splitAux rest sep with
        | nil => simp
        | cons a t => simp

theorem pySplit_ne_nil (s : String) (c : Char) : pySplit s c ≠ [] := by
  unfold pySplit
  simp [pySplit_splitAux_ne_nil]

theorem truthyJ_jarr_of_ne_nil {xs : List JVal} (h : xs ≠ []) :
    truthyJ (.jarr xs) = true := by
  simp [truthyJ, h]

/-! ## `defaultsStep` lemmas -/

/-- The eight keys filled by the defaults loop. -/
def defaultKeys : List String :=
  ["project_name", "strategy_summary", "executive_summary", "channels_priority",
   "timeline_days", "should_trigger_rnd", "should_trigger_marketing",
   "success_probability"]

theorem defaultsList_keys (r : Obj) (cd : JVal) :
    (defaultsList r cd).map Prod.fst = defaultKeys := rfl

theorem defaultsList_truthy (r : Obj) {cd : JVal} (hcd : truthyJ cd = true) :
    ∀ q ∈ defaultsList r cd, truthyJ q.2 = true := by
  intro q hq
  simp only [defaultsList, List.mem_cons, List.not_mem_nil, or_false] at hq
  rcases hq with rfl | rfl | rfl | rfl | rfl | rfl | rfl | rfl
  · exact truthyJ_jstr_append _ (by decide)
  · decide
  · exact truthyJ_jstr_append _ (by decide)
  · exact hcd
  · decide
  · decide
  · decide
  · decide

/-- Does the requirements mapping allow the defaults dict to be computed
without raising?  Only a truthy non-string under `"channels"` raises. -/
def channelsOK (reqs : Obj) : Bool :=
  match oget reqs "channels" with
  | some (.jstr _) => true
  | some v => !truthyJ v
  | none => true

theorem defaultsStep_ok_spec {p r p' : Obj} (h : defaultsStep p r = .ok p') :
    ∃ cd, truthyJ cd = true ∧ p' = applyDefaults p (defaultsList r cd) := by
  unfold defaultsStep at h
  cases hc : oget r "channels" with
  | none =>
      simp only [hc, bind, Except.bind, pure, Except.pure, Except.ok.injEq] at h
      exact ⟨_, by decide, h.symm⟩
  | some v =>
      simp only [hc] at h
      by_cases ht : truthyJ v = true
      · rw [if_pos ht] at h
        cases v with
        | jstr s =>
            simp only [bind, Except.bind, pure, Except.pure, Except.ok.injEq] at h
            refine ⟨_, ?_, h.symm⟩
            exact truthyJ_jarr_of_ne_nil (by
              intro hnil
              exact pySplit_ne_nil s ',' (List.map_eq_nil_iff.mp hnil))
        | jnull => simp [bind, Except.bind, throw, throwThe, MonadExceptOf.throw] at h
        | jbool b => simp [bind, Except.bind, throw, throwThe, MonadExceptOf.throw] at h
        | jnum x => simp [bind, Except.bind, throw, throwThe, MonadExceptOf.throw] at h
        | jarr xs => simp [bind, Except.bind, throw, throwThe, MonadExceptOf.throw] at h
        | jobj fs => simp [bind, Except.bind, throw, throwThe, MonadExceptOf.throw] at h
      · rw [if_neg ht] at h
        simp only [bind, Except.bind, pure, Except.pure, Except.ok.injEq] at h
        exact ⟨_, by decide, h.symm⟩

theorem defaultsStep_total (p : Obj) {r : Obj} (h : channelsOK r = true) :
    ∃ cd, truthyJ cd = true ∧
      defaultsStep p r = .ok (applyDefaults p (defaultsList r cd)) := by
  unfold channelsOK at h
  unfold defaultsStep
  cases hc : oget r "channels" with
  | none =>
      simp only [hc]
      exact ⟨_, by decide, rfl⟩
  | some v =>
      simp only [hc] at h ⊢
      by_cases ht : truthyJ v = true
      · cases v with
        | jstr s =>
            rw [if_pos ht]
            refine ⟨_, ?_, rfl⟩
            exact truthyJ_jarr_of_ne_nil (by
              intro hnil
              exact pySplit_ne_nil s ',' (List.map_eq_nil_iff.mp hnil))
        | jnull => simp [truthyJ] at ht
        | jbool b => simp [ht] at h
        | jnum x => simp [ht] at h
        | jarr xs => simp [ht] at h
        | jobj fs => simp [ht] at h
      · rw [if_neg ht]
        exact ⟨_, by decide, rfl⟩

/-! ## `phasesStep` lemmas -/

theorem oget_phasesStep_ne (p : Obj) {k : String} (h : k ≠ "phases") :
    oget (phasesStep p) k = oget p k := by
  unfold phasesStep
  split
  · exact oget_oset_ne p _ h
  · rfl

theorem oget_phasesStep_phases (p : Obj) :
    oget (phasesStep p) "phases" =
      if phasesDefective p then some phaseTemplate else oget p "phases" := by
  unfold phasesStep
  split
  · next hd => simp [hd, oget_oset_self]
  · next hd => simp [hd]

theorem phasesDefective_congr {p p' : Obj}
    (h : oget p "phases" = oget p' "phases") :
    phasesDefective p = phasesDefective p' := by
  unfold phasesDefective
  rw [h]

/-! ## `budgetComponentsStep` lemmas -/

theorem budgetComponentsStep_of_obj {p ba : Obj} (b : PFloat)
    (h : oget p "budget_allocation" = some (.jobj ba)) :
    budgetComponentsStep p b =
      .ok (oset p "budget_allocation" (.jobj (baDefaults ba b))) := by
  unfold budgetComponentsStep
  rw [h]
  rfl

theorem budgetComponentsStep_ok_spec {p p' : Obj} {b : PFloat}
    (h : budgetComponentsStep p b = .ok p') :
    ∃ ba, (oget p "budget_allocation").getD (.jobj []) = .jobj ba ∧
      p' = oset p "budget_allocation" (.jobj (baDefaults ba b)) := by
  unfold budgetComponentsStep at h
  cases hc : (oget p "budget_allocation").getD (.jobj []) with
  | jobj ba =>
      rw [hc] at h
      simp only [pure, Except.pure, Except.ok.injEq] at h
      exact ⟨ba, rfl, h.symm⟩
  | jnull => rw [hc] at h; simp [throw, throwThe, MonadExceptOf.throw] at h
  | jbool b' => rw [hc] at h; simp [throw, throwThe, MonadExceptOf.throw] at h
  | jnum x => rw [hc] at h; simp [throw, throwThe, MonadExceptOf.throw] at h
  | jstr s => rw [hc] at h; simp [throw, throwThe, MonadExceptOf.throw] at h
  | jarr xs => rw [hc] at h; simp [throw, throwThe, MonadExceptOf.throw] at h

theorem oget_baDefaults_total (ba : Obj) (b : PFloat) :
    oget (baDefaults ba b) "total" = some (.jnum b) :=
  oget_oset_self _ _ _

theorem baDefaults_components_isSome (ba : Obj) (b : PFloat) :
    (oget (baDefaults ba b) "rnd_research").isSome ∧
    (oget (baDefaults ba b) "content_creation").isSome ∧
    (oget (baDefaults ba b) "ads_paid").isSome ∧
    (oget (baDefaults ba b) "tools_tech").isSome := by
  unfold baDefaults
  refine ⟨?_, ?_, ?_, ?_⟩ <;>
    apply oget_oset_isSome_mono <;>
    [skip; skip; skip; skip] <;>
    first
      | exact oget_osetdefault_isSome _ _ _
      | (apply oget_osetdefault_isSome_mono
         first
           | exact oget_osetdefault_isSome _ _ _
           | (apply oget_osetdefault_isSome_mono
              first
                | exact oget_osetdefault_isSome _ _ _
                | (apply oget_osetdefault_isSome_mono
                   exact oget_osetdefault_isSome _ _ _)))

/-! ## `kpiStep` lemmas -/

theorem truthyO_oget_osetdefault_mono {o : Obj} {k' : String} (k : String) (v : JVal)
    (h : truthyO (oget o k') = true) : truthyO (oget (osetdefault o k v) k') = true := by
  by_cases hk : k' = k
  · subst hk
    rw [oget_osetdefault_self]
    cases ho : oget o k' with
    | none => rw [ho] at h; simp [truthyO] at h
    | some w => rw [ho] at h; simpa [truthyO, Option.getD] using h
  · rw [oget_osetdefault_ne o v hk]; exact h

theorem kpiDefaults_presence (m : Obj) (ld cac : ℤ) :
    (oget (kpiDefaults m ld cac) "leads").isSome ∧
    (oget (kpiDefaults m ld cac) "conversion_rate").isSome ∧
    (oget (kpiDefaults m ld cac) "roi_expected").isSome ∧
    (oget (kpiDefaults m ld cac) "cac_target").isSome := by
  unfold kpiDefaults
  refine ⟨?_, ?_, ?_, ?_⟩
  · exact oget_osetdefault_isSome_mono _ _ (oget_osetdefault_isSome_mono _ _
      (oget_osetdefault_isSome_mono _ _ (oget_osetdefault_isSome _ _ _)))
  · exact oget_osetdefault_isSome_mono _ _ (oget_osetdefault_isSome_mono _ _
      (oget_osetdefault_isSome _ _ _))
  · exact oget_osetdefault_isSome_mono _ _ (oget_osetdefault_isSome _ _ _)
  · exact oget_osetdefault_isSome _ _ _

theorem kpiStep_finite_ok (p : Obj) (q : ℚ) :
    ∃ p', kpiStep p (.finite q) = .ok p' ∧
      (∀ k, k ≠ "kpi_targets" → oget p' k = oget p k) ∧
      ∃ km, oget p' "kpi_targets" = some (.jobj km) ∧
        (oget km "leads").isSome ∧ (oget km "conversion_rate").isSome ∧
        (oget km "roi_expected").isSome ∧ (oget km "cac_target").isSome := by
  unfold kpiStep
  cases hm : oget p "kpi_targets" with
  | some v =>
      cases v with
      | jobj km =>
          simp only [hm]
          refine ⟨_, rfl, fun k hk => oget_oset_ne p _ hk, _, oget_oset_self _ _ _, ?_⟩
          exact kpiDefaults_presence km _ _
      | jnull =>
          simp only [hm]
          refine ⟨_, rfl, fun k hk => ?_, _, oget_oset_self _ _ _,
            kpiDefaults_presence [] _ _⟩
          rw [oget_oset_ne _ _ hk, oget_oset_ne _ _ hk]
      | jbool b =>
          simp only [hm]
          refine ⟨_, rfl, fun k hk => ?_, _, oget_oset_self _ _ _,
            kpiDefaults_presence [] _ _⟩
          rw [oget_oset_ne _ _ hk, oget_oset_ne _ _ hk]
      | jnum x =>
          simp only [hm]
          refine ⟨_, rfl, fun k hk => ?_, _, oget_oset_self _ _ _,
            kpiDefaults_presence [] _ _⟩
          rw [oget_oset_ne _ _ hk, oget_oset_ne _ _ hk]
      | jstr s =>
          simp only [hm]
          refine ⟨_, rfl, fun k hk => ?_, _, oget_oset_self _ _ _,
            kpiDefaults_presence [] _ _⟩
          rw [oget_oset_ne _ _ hk, oget_oset_ne _ _ hk]
      | jarr xs =>
          simp only [hm]
          refine ⟨_, rfl, fun k hk => ?_, _, oget_oset_self _ _ _,
            kpiDefaults_presence [] _ _⟩
          rw [oget_oset_ne _ _ hk, oget_oset_ne _ _ hk]
  | none =>
      simp only [hm]
      refine ⟨_, rfl, fun k hk => ?_, _, oget_oset_self _ _ _,
        kpiDefaults_presence [] _ _⟩
      rw [oget_oset_ne _ _ hk, oget_oset_ne _ _ hk]

theorem pyInt_divQ_nonfinite (b : PFloat) (hb : b.isFinite = false) (c : ℚ) (hc : 0 < c) :
    ∃ e, pyInt (b.divQ c) = .error e := by
  cases b <;> simp_all [PFloat.isFinite, PFloat.divQ, pyInt, hc]

theorem kpiStep_ok_spec {p p' : Obj} {b : PFloat} (h : kpiStep p b = .ok p') :
    (∃ q, b = .finite q) ∧
    (∀ k, k ≠ "kpi_targets" → oget p' k = oget p k) ∧
    ∃ km, oget p' "kpi_targets" = some (.jobj km) ∧
      (oget km "leads").isSome ∧ (oget km "conversion_rate").isSome ∧
      (oget km "roi_expected").isSome ∧ (oget km "cac_target").isSome := by
  cases b with
  | finite q =>
      obtain ⟨p'', heq, hfoot, hcontent⟩ := kpiStep_finite_ok p q
      rw [heq] at h
      injection h with h'
      subst h'
      exact ⟨⟨q, rfl⟩, hfoot, hcontent⟩
  | inf =>
      exfalso
      obtain ⟨e, he⟩ := pyInt_divQ_nonfinite .inf rfl 1000 (by norm_num)
      unfold kpiStep at h
      simp only [he, bind, Except.bind] at h
      exact Except.noConfusion h
  | neginf =>
      exfalso
      obtain ⟨e, he⟩ := pyInt_divQ_nonfinite .neginf rfl 1000 (by norm_num)
      unfold kpiStep at h
      simp only [he, bind, Except.bind] at h
      exact Except.noConfusion h
  | nan =>
      exfalso
      obtain ⟨e, he⟩ := pyInt_divQ_nonfinite .nan rfl 1000 (by norm_num)
      unfold kpiStep at h
      simp only [he, bind, Except.bind] at h
      exact Except.noConfusion h

/-! ## `riskStep`, `rndStep`, `marketingStep` lemmas -/

theorem truthy_after_cond_set (o : Obj) (k : String) {d : JVal} (hd : truthyJ d = true) :
    truthyO (oget (if truthyO (oget o k) then o else oset o k d) k) = true := by
  by_cases h : truthyO (oget o k) = true
  · rw [if_pos h]; exact h
  · rw [if_neg h, oget_oset_self]; simpa [truthyO] using hd

theorem truthy_preserved_cond_set (o : Obj) {k k' : String} (hne : k' ≠ k) (d : JVal)
    (h : truthyO (oget o k') = true) :
    truthyO (oget (if truthyO (oget o k) then o else oset o k d) k') = true := by
  by_cases hc : truthyO (oget o k) = true
  · rw [if_pos hc]; exact h
  · rw [if_neg hc, oget_oset_ne o d hne]; exact h

theorem riskFix_presence (ra : Obj) :
    truthyO (oget (riskFix ra) "high") = true ∧
    truthyO (oget (riskFix ra) "medium") = true ∧
    (oget (riskFix ra) "mitigation").isSome := by
  unfold riskFix
  refine ⟨?_, ?_, oget_osetdefault_isSome _ _ _⟩
  · apply truthyO_oget_osetdefault_mono
    apply truthy_preserved_cond_set _ (by decide)
    exact truthy_after_cond_set _ _ (by decide)
  · apply truthyO_oget_osetdefault_mono
    exact truthy_after_cond_set _ _ (by decide)

theorem riskStep_spec (p : Obj) :
    (∀ k, k ≠ "risk_assessment" → oget (riskStep p) k = oget p k) ∧
    ∃ rm, oget (riskStep p) "risk_assessment" = some (.jobj rm) ∧
      truthyO (oget rm "high") = true ∧ truthyO (oget rm "medium") = true ∧
      (oget rm "mitigation").isSome := by
  unfold riskStep
  cases hm : oget p "risk_assessment" with
  | some v =>
      cases v with
      | jobj rm =>
          simp only [hm]
          exact ⟨fun k hk => oget_oset_ne p _ hk, _, oget_oset_self _ _ _,
            riskFix_presence rm⟩
      | jnull =>
          simp only [hm]
          exact ⟨fun k hk => by rw [oget_oset_ne _ _ hk, oget_oset_ne _ _ hk],
            _, oget_oset_self _ _ _, riskFix_presence []⟩
      | jbool b =>
          simp only [hm]
          exact ⟨fun k hk => by rw [oget_oset_ne _ _ hk, oget_oset_ne _ _ hk],
            _, oget_oset_self _ _ _, riskFix_presence []⟩
      | jnum x =>
          simp only [hm]
          exact ⟨fun k hk => by rw [oget_oset_ne _ _ hk, oget_oset_ne _ _ hk],
            _, oget_oset_self _ _ _, riskFix_presence []⟩
      | jstr s =>
          simp only [hm]
          exact ⟨fun k hk => by rw [oget_oset_ne _ _ hk, oget_oset_ne _ _ hk],
            _, oget_oset_self _ _ _, riskFix_presence []⟩
      | jarr xs =>
          simp only [hm]
          exact ⟨fun k hk => by rw [oget_oset_ne _ _ hk, oget_oset_ne _ _ hk],
            _, oget_oset_self _ _ _, riskFix_presence []⟩
  | none =>
      simp only [hm]
      exact ⟨fun k hk => by rw [oget_oset_ne _ _ hk, oget_oset_ne _ _ hk],
        _, oget_oset_self _ _ _, riskFix_presence []⟩

theorem rndFix_presence (m : Obj) :
    (oget (rndFix m) "research_topics").isSome ∧
    (oget (rndFix m) "competitor_analysis").isSome ∧
    (oget (rndFix m) "market_research").isSome := by
  unfold rndFix
  refine ⟨?_, ?_, ?_⟩
  · exact oget_osetdefault_isSome_mono _ _ (oget_osetdefault_isSome_mono _ _
      (oget_osetdefault_isSome _ _ _))
  · exact oget_osetdefault_isSome_mono _ _ (oget_osetdefault_isSome _ _ _)
  · exact oget_osetdefault_isSome _ _ _

theorem rndStep_spec (p : Obj) :
    (∀ k, k ≠ "rnd_params" → oget (rndStep p) k = oget p k) ∧
    ∃ rm, oget (rndStep p) "rnd_params" = some (.jobj rm) ∧
      (oget rm "research_topics").isSome ∧ (oget rm "competitor_analysis").isSome ∧
      (oget rm "market_research").isSome := by
  unfold rndStep
  cases hm : oget p "rnd_params" with
  | some v =>
      cases v with
      | jobj rm =>
          simp only [hm]
          exact ⟨fun k hk => oget_oset_ne p _ hk, _, oget_oset_self _ _ _,
            rndFix_presence rm⟩
      | jnull =>
          simp only [hm]
          exact ⟨fun k hk => by rw [oget_oset_ne _ _ hk, oget_oset_ne _ _ hk],
            _, oget_oset_self _ _ _, rndFix_presence []⟩
      | jbool b =>
          simp only [hm]
          exact ⟨fun k hk => by rw [oget_oset_ne _ _ hk, oget_oset_ne _ _ hk],
            _, oget_oset_self _ _ _, rndFix_presence []⟩
      | jnum x =>
          simp only [hm]
          exact ⟨fun k hk => by rw [oget_oset_ne _ _ hk, oget_oset_ne _ _ hk],
            _, oget_oset_self _ _ _, rndFix_presence []⟩
      | jstr s =>
          simp only [hm]
          exact ⟨fun k hk => by rw [oget_oset_ne _ _ hk, oget_oset_ne _ _ hk],
            _, oget_oset_self _ _ _, rndFix_presence []⟩
      | jarr xs =>
          simp only [hm]
          exact ⟨fun k hk => by rw [oget_oset_ne _ _ hk, oget_oset_ne _ _ hk],
            _, oget_oset_self _ _ _, rndFix_presence []⟩
  | none =>
      simp only [hm]
      exact ⟨fun k hk => by rw [oget_oset_ne _ _ hk, oget_oset_ne _ _ hk],
        _, oget_oset_self _ _ _, rndFix_presence []⟩

theorem mpFix_presence (m reqs : Obj) (b : PFloat) :
    (oget (mpFix m reqs b) "campaign_type").isSome ∧
    (oget (mpFix m reqs b) "creative_brief").isSome ∧
    (oget (mpFix m reqs b) "ad_budget").isSome := by
  unfold mpFix
  refine ⟨?_, ?_, ?_⟩
  · exact oget_osetdefault_isSome_mono _ _ (oget_osetdefault_isSome_mono _ _
      (oget_osetdefault_isSome _ _ _))
  · exact oget_osetdefault_isSome_mono _ _ (oget_osetdefault_isSome _ _ _)
  · exact oget_osetdefault_isSome _ _ _

theorem marketingStep_spec (p reqs : Obj) (b : PFloat) :
    (∀ k, k ≠ "marketing_params" → oget (marketingStep p reqs b) k = oget p k) ∧
    ∃ rm, oget (marketingStep p reqs b) "marketing_params" = some (.jobj rm) ∧
      (oget rm "campaign_type").isSome ∧ (oget rm "creative_brief").isSome ∧
      (oget rm "ad_budget").isSome := by
  unfold marketingStep
  cases hm : oget p "marketing_params" with
  | some v =>
      cases v with
      | jobj rm =>
          simp only [hm]
          exact ⟨fun k hk => oget_oset_ne p _ hk, _, oget_oset_self _ _ _,
            mpFix_presence rm reqs b⟩
      | jnull =>
          simp only [hm]
          exact ⟨fun k hk => by rw [oget_oset_ne _ _ hk, oget_oset_ne _ _ hk],
            _, oget_oset_self _ _ _, mpFix_presence [] reqs b⟩
      | jbool bb =>
          simp only [hm]
          exact ⟨fun k hk => by rw [oget_oset_ne _ _ hk, oget_oset_ne _ _ hk],
            _, oget_oset_self _ _ _, mpFix_presence [] reqs b⟩
      | jnum x =>
          simp only [hm]
          exact ⟨fun k hk => by rw [oget_oset_ne _ _ hk, oget_oset_ne _ _ hk],
            _, oget_oset_self _ _ _, mpFix_presence [] reqs b⟩
      | jstr s =>
          simp only [hm]
          exact ⟨fun k hk => by rw [oget_oset_ne _ _ hk, oget_oset_ne _ _ hk],
            _, oget_oset_self _ _ _, mpFix_presence [] reqs b⟩
      | jarr xs =>
          simp only [hm]
          exact ⟨fun k hk => by rw [oget_oset_ne _ _ hk, oget_oset_ne _ _ hk],
            _, oget_oset_self _ _ _, mpFix_presence [] reqs b⟩
  | none =>
      simp only [hm]
      exact ⟨fun k hk => by rw [oget_oset_ne _ _ hk, oget_oset_ne _ _ hk],
        _, oget_oset_self _ _ _, mpFix_presence [] reqs b⟩

/-! ## Lemmas for the opening mutations of the validator -/

theorem oget_ensureBA_self (plan : Obj) :
    oget (ensureBA plan) "budget_allocation" =
      some ((oget plan "budget_allocation").getD (.jobj [])) := by
  unfold ensureBA
  cases h : oget plan "budget_allocation" with
  | some v => simp [h]
  | none => simp [h, oget_oset_self]

theorem oget_ensureBA_ne (plan : Obj) {k : String} (h : k ≠ "budget_allocation") :
    oget (ensureBA plan) k = oget plan k := by
  unfold ensureBA
  split
  · rfl
  · exact oget_oset_ne plan _ h

theorem oget_stampTotal_self (plan ba : Obj) (b : PFloat) :
    oget (stampTotal plan ba b) "budget_allocation" =
      some (.jobj (oset ba "total" (.jnum b))) :=
  oget_oset_self _ _ _

theorem oget_stampTotal_ne (plan ba : Obj) (b : PFloat) {k : String}
    (h : k ≠ "budget_allocation") :
    oget (stampTotal plan ba b) k = oget plan k :=
  oget_oset_ne plan _ h

theorem oget_stampInsights_ne (plan ins : Obj) {k : String}
    (h : k ≠ "conversation_insights") :
    oget (stampInsights plan ins) k = oget plan k := by
  unfold stampInsights
  split
  · rfl
  · exact oget_oset_ne plan _ h

theorem oget_stampInsights_self (plan : Obj) {ins : Obj} (h : ¬ ins.isEmpty) :
    oget (stampInsights plan ins) "conversation_insights" = some (.jobj ins) := by
  unfold stampInsights
  rw [if_neg (by simpa using h)]
  exact oget_oset_self _ _ _

theorem stampInsights_empty (plan : Obj) : stampInsights plan [] = plan := rfl

theorem except_pure_eq {α : Type} (a : α) : (pure a : Except Err α) = .ok a := rfl

theorem except_throw_eq {α : Type} (e : Err) : (throw e : Except Err α) = .error e := rfl

theorem totalStep_of_obj {plan ba : Obj} (b : PFloat)
    (h : oget plan "budget_allocation" = some (.jobj ba)) :
    totalStep plan b = .ok (stampTotal plan ba b) := by
  unfold totalStep
  simp only [h]
  rfl

theorem totalStep_ok_spec {plan p' : Obj} {b : PFloat} (h : totalStep plan b = .ok p') :
    ∃ ba, oget plan "budget_allocation" = some (.jobj ba) ∧ p' = stampTotal plan ba b := by
  unfold totalStep at h
  cases hc : oget plan "budget_allocation" with
  | none =>
      simp only [hc] at h
      rw [except_throw_eq] at h
      exact Except.noConfusion h
  | some v =>
      cases v with
      | jobj ba =>
          simp only [hc] at h
          rw [except_pure_eq] at h
          injection h with h
          exact ⟨ba, rfl, h.symm⟩
      | jnull =>
          simp only [hc] at h; rw [except_throw_eq] at h; exact Except.noConfusion h
      | jbool bb =>
          simp only [hc] at h; rw [except_throw_eq] at h; exact Except.noConfusion h
      | jnum x =>
          simp only [hc] at h; rw [except_throw_eq] at h; exact Except.noConfusion h
      | jstr ss =>
          simp only [hc] at h; rw [except_throw_eq] at h; exact Except.noConfusion h
      | jarr xs =>
          simp only [hc] at h; rw [except_throw_eq] at h; exact Except.noConfusion h

/-! ## Decomposition of a successful validator run -/

theorem except_bind_ok {α β : Type} {x : Except Err α} {f : α → Except Err β} {b : β}
    (h : x >>= f = .ok b) : ∃ a, x = .ok a ∧ f a = .ok b := by
  cases x with
  | error e => exact Except.noConfusion h
  | ok a => exact ⟨a, rfl, h⟩

theorem validate_ok_decomp {plan reqs ins out : Obj}
    (h : validate_and_fix_plan plan reqs ins = .ok out) :
    ∃ (ba : Obj) (cd : JVal) (p5 p6 : Obj),
      oget (ensureBA plan) "budget_allocation" = some (.jobj ba) ∧
      truthyJ cd = true ∧
      budgetComponentsStep
        (phasesStep (applyDefaults
          (stampInsights (stampTotal (ensureBA plan) ba (safe_float (oget reqs "budget"))) ins)
          (defaultsList reqs cd)))
        (safe_float (oget reqs "budget")) = .ok p5 ∧
      kpiStep p5 (safe_float (oget reqs "budget")) = .ok p6 ∧
      out = marketingStep (rndStep (riskStep p6)) reqs (safe_float (oget reqs "budget")) := by
  unfold validate_and_fix_plan at h
  obtain ⟨p1, hX, h⟩ := except_bind_ok h
  obtain ⟨ba, hba, hp1⟩ := totalStep_ok_spec hX
  subst hp1
  obtain ⟨p3, hd, h⟩ := except_bind_ok h
  obtain ⟨cd, hcd, hp3⟩ := defaultsStep_ok_spec hd
  subst hp3
  obtain ⟨p5, hb, h⟩ := except_bind_ok h
  obtain ⟨p6, hk, h⟩ := except_bind_ok h
  rw [except_pure_eq] at h
  injection h with h
  exact ⟨ba, cd, p5, p6, hba, hcd, hb, hk, h.symm⟩

theorem except_ok_bind {α β : Type} (a : α) (f : α → Except Err β) :
    (Except.ok a : Except Err α) >>= f = f a := rfl

/-- Running the validator once every one of its fallible stages is known
to succeed. -/
theorem validate_eq_of_chain (plan reqs ins : Obj) {P1 P3 P5 P6 : Obj}
    (h1 : totalStep (ensureBA plan) (safe_float (oget reqs "budget")) = .ok P1)
    (h3 : defaultsStep (stampInsights P1 ins) reqs = .ok P3)
    (h5 : budgetComponentsStep (phasesStep P3) (safe_float (oget reqs "budget")) = .ok P5)
    (h6 : kpiStep P5 (safe_float (oget reqs "budget")) = .ok P6) :
    validate_and_fix_plan plan reqs ins =
      .ok (marketingStep (rndStep (riskStep P6)) reqs (safe_float (oget reqs "budget"))) := by
  simp only [validate_and_fix_plan, h1, except_ok_bind, h3, h5, h6]
  rfl

theorem defaultsList_keys_ne (r : Obj) (cd : JVal) {k : String}
    (hk : k ∉ defaultKeys) : ∀ q ∈ defaultsList r cd, q.1 ≠ k := by
  intro q hq he
  apply hk
  rw [← defaultsList_keys r cd, ← he]
  exact List.mem_map_of_mem _ hq

/-- Is the model's `budget_allocation` value either absent or a dict (the
only two shapes the opening item assignment of the validator survives)? -/
def baOK (plan : Obj) : Bool :=
  match oget plan "budget_allocation" with
  | none => true
  | some (.jobj _) => true
  | some _ => false

theorem baOK_ensure {plan : Obj} (hba : baOK plan = true) :
    ∃ ba, oget (ensureBA plan) "budget_allocation" = some (.jobj ba) := by
  rw [oget_ensureBA_self]
  unfold baOK at hba
  cases hc : oget plan "budget_allocation" with
  | none => exact ⟨[], by simp [hc]⟩
  | some v =>
      cases v with
      | jobj ba => exact ⟨ba, by simp [hc]⟩
      | jnull => rw [hc] at hba; simp at hba
      | jbool b => rw [hc] at hba; simp at hba
      | jnum x => rw [hc] at hba; simp at hba
      | jstr s => rw [hc] at hba; simp at hba
      | jarr xs => rw [hc] at hba; simp at hba

/-- Totality of the repair: when the model's `budget_allocation` is
absent or a dict, the requirements' `channels` value (if truthy) is a
string, and the normalized budget is finite, the validator returns a
plan. -/
theorem validate_total {plan reqs ins : Obj} {q : ℚ}
    (hba : baOK plan = true) (hch : channelsOK reqs = true)
    (hq : safe_float (oget reqs "budget") = .finite q) :
    ∃ out, validate_and_fix_plan plan reqs ins = .ok out := by
  obtain ⟨ba, hba0⟩ := baOK_ensure hba
  have h1 := totalStep_of_obj (safe_float (oget reqs "budget")) hba0
  obtain ⟨cd, hcd, h3⟩ := defaultsStep_total
    (stampInsights (stampTotal (ensureBA plan) ba (safe_float (oget reqs "budget"))) ins)
    hch
  have hba4 : oget (phasesStep (applyDefaults
      (stampInsights (stampTotal (ensureBA plan) ba (safe_float (oget reqs "budget"))) ins)
      (defaultsList reqs cd))) "budget_allocation" =
        some (.jobj (oset ba "total" (.jnum (safe_float (oget reqs "budget"))))) := by
    rw [oget_phasesStep_ne _ (by decide)]
    rw [oget_applyDefaults_ne _ (defaultsList_keys_ne reqs cd (by decide))]
    rw [oget_stampInsights_ne _ _ (by decide)]
    exact oget_stampTotal_self _ _ _
  have h5 := budgetComponentsStep_of_obj (safe_float (oget reqs "budget")) hba4
  obtain ⟨p6, h6, -⟩ := kpiStep_finite_ok
    (oset (phasesStep (applyDefaults
      (stampInsights (stampTotal (ensureBA plan) ba (safe_float (oget reqs "budget"))) ins)
      (defaultsList reqs cd))) "budget_allocation"
      (.jobj (baDefaults (oset ba "total" (.jnum (safe_float (oget reqs "budget"))))
        (safe_float (oget reqs "budget"))))) q
  rw [← hq] at h6
  exact ⟨_, validate_eq_of_chain plan reqs ins h1 h3 h5 h6⟩

theorem phaseTemplate_arr : ∃ xs, phaseTemplate = JVal.jarr xs ∧ xs.length = 3 :=
  ⟨_, rfl, rfl⟩

theorem phases_ge3_of_not_defective {p : Obj} (h : phasesDefective p = false) :
    ∃ xs, oget p "phases" = some (.jarr xs) ∧ 3 ≤ xs.length := by
  unfold phasesDefective at h
  cases hc : oget p "phases" with
  | none => rw [hc] at h; simp at h
  | some v =>
      cases v with
      | jarr xs =>
          rw [hc] at h
          simp only [decide_eq_false_iff_not, Nat.not_lt] at h
          exact ⟨xs, rfl, h⟩
      | jnull => rw [hc] at h; simp at h
      | jbool b => rw [hc] at h; simp at h
      | jnum x => rw [hc] at h; simp at h
      | jstr s => rw [hc] at h; simp at h
      | jobj fs => rw [hc] at h; simp at h

/-- Every §3 invariant holds of any plan the validator returns. -/
theorem validate_ok_invariants {plan reqs ins out : Obj}
    (h : validate_and_fix_plan plan reqs ins = .ok out) :
    (∃ baOut, oget out "budget_allocation" = some (.jobj baOut) ∧
      oget baOut "total" = some (.jnum (safe_float (oget reqs "budget"))) ∧
      (oget baOut "rnd_research").isSome ∧ (oget baOut "content_creation").isSome ∧
      (oget baOut "ads_paid").isSome ∧ (oget baOut "tools_tech").isSome) ∧
    (∃ xs, oget out "phases" = some (.jarr xs) ∧ 3 ≤ xs.length) ∧
    (∀ k ∈ defaultKeys, truthyO (oget out k) = true) ∧
    (∃ km, oget out "kpi_targets" = some (.jobj km) ∧
      (oget km "leads").isSome ∧ (oget km "conversion_rate").isSome ∧
      (oget km "roi_expected").isSome ∧ (oget km "cac_target").isSome) ∧
    (∃ rm, oget out "risk_assessment" = some (.jobj rm) ∧
      truthyO (oget rm "high") = true ∧ truthyO (oget rm "medium") = true ∧
      (oget rm "mitigation").isSome) ∧
    (∃ nm, oget out "rnd_params" = some (.jobj nm) ∧
      (oget nm "research_topics").isSome ∧ (oget nm "competitor_analysis").isSome ∧
      (oget nm "market_research").isSome) ∧
    (∃ mm, oget out "marketing_params" = some (.jobj mm) ∧
      (oget mm "campaign_type").isSome ∧ (oget mm "creative_brief").isSome ∧
      (oget mm "ad_budget").isSome) := by
  obtain ⟨ba, cd, p5, p6, hba, hcd, hb, hk, hout⟩ := validate_ok_decomp h
  obtain ⟨ba1, hba1, hp5⟩ := budgetComponentsStep_ok_spec hb
  obtain ⟨-, hkfoot, km, hkm, hkm1, hkm2, hkm3, hkm4⟩ := kpiStep_ok_spec hk
  obtain ⟨hrfoot, rm, hrm, hrm1, hrm2, hrm3⟩ := riskStep_spec p6
  obtain ⟨hnfoot, nm, hnm, hnm1, hnm2, hnm3⟩ := rndStep_spec (riskStep p6)
  obtain ⟨hmfoot, mm, hmm, hmm1, hmm2, hmm3⟩ :=
    marketingStep_spec (rndStep (riskStep p6)) reqs (safe_float (oget reqs "budget"))
  subst hout
  have t6 : ∀ k, k ≠ "marketing_params" → k ≠ "rnd_params" → k ≠ "risk_assessment" →
      oget (marketingStep (rndStep (riskStep p6)) reqs (safe_float (oget reqs "budget"))) k =
        oget p6 k := by
    intro k h1 h2 h3
    rw [hmfoot k h1, hnfoot k h2, hrfoot k h3]
  have t5 : ∀ k, k ≠ "marketing_params" → k ≠ "rnd_params" → k ≠ "risk_assessment" →
      k ≠ "kpi_targets" →
      oget (marketingStep (rndStep (riskStep p6)) reqs (safe_float (oget reqs "budget"))) k =
        oget p5 k := by
    intro k h1 h2 h3 h4
    rw [t6 k h1 h2 h3, hkfoot k h4]
  refine ⟨?_, ?_, ?_, ?_, ?_, ?_, ?_⟩
  · refine ⟨baDefaults ba1 (safe_float (oget reqs "budget")), ?_,
      oget_baDefaults_total _ _,
      (baDefaults_components_isSome ba1 _).1,
      (baDefaults_components_isSome ba1 _).2.1,
      (baDefaults_components_isSome ba1 _).2.2.1,
      (baDefaults_components_isSome ba1 _).2.2.2⟩
    rw [t5 _ (by decide) (by decide) (by decide) (by decide), hp5]
    exact oget_oset_self _ _ _
  · have hph : oget (marketingStep (rndStep (riskStep p6)) reqs (safe_float (oget reqs "budget")))
        "phases" =
        oget (phasesStep (applyDefaults
          (stampInsights (stampTotal (ensureBA plan) ba (safe_float (oget reqs "budget"))) ins)
          (defaultsList reqs cd))) "phases" := by
      rw [t5 _ (by decide) (by decide) (by decide) (by decide), hp5,
        oget_oset_ne _ _ (by decide)]
    rw [hph, oget_phasesStep_phases]
    by_cases hdef : phasesDefective (applyDefaults
        (stampInsights (stampTotal (ensureBA plan) ba (safe_float (oget reqs "budget"))) ins)
        (defaultsList reqs cd)) = true
    · rw [if_pos hdef]
      obtain ⟨xs, hxs, hlen⟩ := phaseTemplate_arr
      exact ⟨xs, by rw [hxs], by omega⟩
    · rw [if_neg hdef]
      exact phases_ge3_of_not_defective (Bool.not_eq_true _ ▸ Bool.of_not_eq_true hdef)
  · intro k hkmem
    have hne1 : k ≠ "marketing_params" := by intro e; subst e; revert hkmem; decide
    have hne2 : k ≠ "rnd_params" := by intro e; subst e; revert hkmem; decide
    have hne3 : k ≠ "risk_assessment" := by intro e; subst e; revert hkmem; decide
    have hne4 : k ≠ "kpi_targets" := by intro e; subst e; revert hkmem; decide
    have hne5 : k ≠ "budget_allocation" := by intro e; subst e; revert hkmem; decide
    have hne6 : k ≠ "phases" := by intro e; subst e; revert hkmem; decide
    rw [t5 _ hne1 hne2 hne3 hne4, hp5, oget_oset_ne _ _ hne5, oget_phasesStep_ne _ hne6]
    apply oget_applyDefaults_mem
    · rw [defaultsList_keys]
      exact hkmem
    · exact defaultsList_truthy reqs hcd
  · exact ⟨km, by rw [t6 _ (by decide) (by decide) (by decide)]; exact hkm,
      hkm1, hkm2, hkm3, hkm4⟩
  · exact ⟨rm, by rw [hmfoot _ (by decide), hnfoot _ (by decide)]; exact hrm,
      hrm1, hrm2, hrm3⟩
  · exact ⟨nm, by rw [hmfoot _ (by decide)]; exact hnm, hnm1, hnm2, hnm3⟩
  · exact ⟨mm, hmm, hmm1, hmm2, hmm3⟩

/-- The phase list of a returned plan: the fixed template exactly when
the input's `phases` value was absent, a non-list, or shorter than 3;
otherwise the input's own value, unchanged. -/
theorem validate_ok_phases {plan reqs ins out : Obj}
    (h : validate_and_fix_plan plan reqs ins = .ok out) :
    oget out "phases" =
      if phasesDefective plan then some phaseTemplate else oget plan "phases" := by
  obtain ⟨ba, cd, p5, p6, hba, hcd, hb, hk, hout⟩ := validate_ok_decomp h
  obtain ⟨ba1, hba1, hp5⟩ := budgetComponentsStep_ok_spec hb
  obtain ⟨-, hkfoot, -⟩ := kpiStep_ok_spec hk
  obtain ⟨hrfoot, -⟩ := riskStep_spec p6
  obtain ⟨hnfoot, -⟩ := rndStep_spec (riskStep p6)
  obtain ⟨hmfoot, -⟩ :=
    marketingStep_spec (rndStep (riskStep p6)) reqs (safe_float (oget reqs "budget"))
  subst hout
  have hpre : oget (applyDefaults
      (stampInsights (stampTotal (ensureBA plan) ba (safe_float (oget reqs "budget"))) ins)
      (defaultsList reqs cd)) "phases" = oget plan "phases" := by
    rw [oget_applyDefaults_ne _ (defaultsList_keys_ne reqs cd (by decide)),
      oget_stampInsights_ne _ _ (by decide),
      oget_stampTotal_ne _ _ _ (by decide),
      oget_ensureBA_ne _ (by decide)]
  rw [hmfoot _ (by decide), hnfoot _ (by decide), hrfoot _ (by decide),
    hkfoot _ (by decide), hp5, oget_oset_ne _ _ (by decide),
    oget_phasesStep_phases, phasesDefective_congr hpre, hpre]

/-- The `conversation_insights` key of a returned plan: stamped with the
caller's insights when those are non-empty, otherwise carried over from
the model output untouched. -/
theorem validate_ok_insights {plan reqs ins out : Obj}
    (h : validate_and_fix_plan plan reqs ins = .ok out) :
    oget out "conversation_insights" =
      if ins.isEmpty then oget plan "conversation_insights" else some (.jobj ins) := by
  obtain ⟨ba, cd, p5, p6, hba, hcd, hb, hk, hout⟩ := validate_ok_decomp h
  obtain ⟨ba1, hba1, hp5⟩ := budgetComponentsStep_ok_spec hb
  obtain ⟨-, hkfoot, -⟩ := kpiStep_ok_spec hk
  obtain ⟨hrfoot, -⟩ := riskStep_spec p6
  obtain ⟨hnfoot, -⟩ := rndStep_spec (riskStep p6)
  obtain ⟨hmfoot, -⟩ :=
    marketingStep_spec (rndStep (riskStep p6)) reqs (safe_float (oget reqs "budget"))
  subst hout
  rw [hmfoot _ (by decide), hnfoot _ (by decide), hrfoot _ (by decide),
    hkfoot _ (by decide), hp5, oget_oset_ne _ _ (by decide),
    oget_phasesStep_ne _ (by decide),
    oget_applyDefaults_ne _ (defaultsList_keys_ne reqs cd (by decide))]
  cases hin : ins.isEmpty with
  | true =>
      have : ins = [] := by cases ins with | nil => rfl | cons a l => simp at hin
      subst this
      rw [stampInsights_empty, if_pos rfl]
      rw [oget_stampTotal_ne _ _ _ (by decide), oget_ensureBA_ne _ (by decide)]
  | false =>
      rw [if_neg (by simp [hin])]
      exact oget_stampInsights_self _ (by simp [hin])

/-! ## No-op lemmas: the validator on an already fully-populated plan -/

theorem ensureBA_of_present {plan : Obj} (h : (oget plan "budget_allocation").isSome) :
    ensureBA plan = plan := by
  unfold ensureBA
  rw [if_pos h]

theorem phasesStep_noop {p : Obj} (h : phasesDefective p = false) :
    phasesStep p = p := by
  unfold phasesStep
  rw [h]
  simp

theorem baDefaults_noop {ba : Obj} {b : PFloat}
    (h1 : (oget ba "rnd_research").isSome) (h2 : (oget ba "content_creation").isSome)
    (h3 : (oget ba "ads_paid").isSome) (h4 : (oget ba "tools_tech").isSome)
    (h5 : oget ba "total" = some (.jnum b)) :
    baDefaults ba b = ba := by
  unfold baDefaults
  rw [osetdefault_of_isSome _ h1, osetdefault_of_isSome _ h2,
    osetdefault_of_isSome _ h3, osetdefault_of_isSome _ h4, oset_eq_self h5]

theorem budgetComponentsStep_noop {p ba : Obj} {b : PFloat}
    (hm : oget p "budget_allocation" = some (.jobj ba))
    (h1 : (oget ba "rnd_research").isSome) (h2 : (oget ba "content_creation").isSome)
    (h3 : (oget ba "ads_paid").isSome) (h4 : (oget ba "tools_tech").isSome)
    (h5 : oget ba "total" = some (.jnum b)) :
    budgetComponentsStep p b = .ok p := by
  rw [budgetComponentsStep_of_obj b hm, baDefaults_noop h1 h2 h3 h4 h5,
    oset_eq_self hm]

theorem kpiStep_noop {p km : Obj} {q : ℚ}
    (hm : oget p "kpi_targets" = some (.jobj km))
    (h1 : (oget km "leads").isSome) (h2 : (oget km "conversion_rate").isSome)
    (h3 : (oget km "roi_expected").isSome) (h4 : (oget km "cac_target").isSome) :
    kpiStep p (.finite q) = .ok p := by
  have hfix : kpiDefaults km (max 10 (pyTrunc (q / 1000)))
      (pyTrunc (q / ((max 10 (pyTrunc (q / 1000)) : ℤ) : ℚ))) = km := by
    unfold kpiDefaults
    rw [osetdefault_of_isSome _ h1, osetdefault_of_isSome _ h2,
      osetdefault_of_isSome _ h3, osetdefault_of_isSome _ h4]
  calc kpiStep p (.finite q)
      = .ok (oset p "kpi_targets" (.jobj (kpiDefaults km (max 10 (pyTrunc (q / 1000)))
          (pyTrunc (q / ((max 10 (pyTrunc (q / 1000)) : ℤ) : ℚ)))))) := by
        unfold kpiStep
        simp only [hm]
        rfl
    _ = .ok p := by rw [hfix, oset_eq_self hm]

theorem riskFix_noop {ra : Obj}
    (h1 : truthyO (oget ra "high") = true) (h2 : truthyO (oget ra "medium") = true)
    (h3 : (oget ra "mitigation").isSome) :
    riskFix ra = ra := by
  unfold riskFix
  simp only [h1, if_pos, reduceIte, osetdefault_of_isSome _ h3, h2]

theorem riskStep_noop {p ra : Obj}
    (hm : oget p "risk_assessment" = some (.jobj ra))
    (h1 : truthyO (oget ra "high") = true) (h2 : truthyO (oget ra "medium") = true)
    (h3 : (oget ra "mitigation").isSome) :
    riskStep p = p := by
  unfold riskStep
  simp only [hm]
  rw [riskFix_noop h1 h2 h3, oset_eq_self hm]

theorem rndFix_noop {m : Obj}
    (h1 : (oget m "research_topics").isSome) (h2 : (oget m "competitor_analysis").isSome)
    (h3 : (oget m "market_research").isSome) :
    rndFix m = m := by
  unfold rndFix
  rw [osetdefault_of_isSome _ h1, osetdefault_of_isSome _ h2, osetdefault_of_isSome _ h3]

theorem rndStep_noop {p m : Obj}
    (hm : oget p "rnd_params" = some (.jobj m))
    (h1 : (oget m "research_topics").isSome) (h2 : (oget m "competitor_analysis").isSome)
    (h3 : (oget m "market_research").isSome) :
    rndStep p = p := by
  unfold rndStep
  simp only [hm]
  rw [rndFix_noop h1 h2 h3, oset_eq_self hm]

theorem mpFix_noop {m : Obj} (reqs : Obj) (b : PFloat)
    (h1 : (oget m "campaign_type").isSome) (h2 : (oget m "creative_brief").isSome)
    (h3 : (oget m "ad_budget").isSome) :
    mpFix m reqs b = m := by
  unfold mpFix
  rw [osetdefault_of_isSome _ h1, osetdefault_of_isSome _ h2, osetdefault_of_isSome _ h3]

theorem marketingStep_noop {p m : Obj} (reqs : Obj) (b : PFloat)
    (hm : oget p "marketing_params" = some (.jobj m))
    (h1 : (oget m "campaign_type").isSome) (h2 : (oget m "creative_brief").isSome)
    (h3 : (oget m "ad_budget").isSome) :
    marketingStep p reqs b = p := by
  unfold marketingStep
  simp only [hm]
  rw [mpFix_noop reqs b h1 h2 h3, oset_eq_self hm]

theorem defaultsStep_noop {p reqs : Obj} (hch : channelsOK reqs = true)
    (hdefs : ∀ k ∈ defaultKeys, truthyO (oget p k) = true) :
    defaultsStep p reqs = .ok p := by
  obtain ⟨cd, hcd, heq⟩ := defaultsStep_total p hch
  rw [heq, applyDefaults_noop]
  intro q hq
  apply hdefs
  rw [← defaultsList_keys reqs cd]
  exact List.mem_map_of_mem _ hq

/-- Running the validator over a fully-populated, truthy-valued plan:
the output equals the input except that `budget_allocation.total` is
re-stamped from the requirements and `conversation_insights` is
re-stamped from the (non-empty) computed insights. -/
theorem validate_noop {plan reqs ins ba0 km ra nm mm : Obj} {q : ℚ}
    (hq : safe_float (oget reqs "budget") = .finite q)
    (hch : channelsOK reqs = true)
    (hins : ¬ ins.isEmpty)
    (hba : oget plan "budget_allocation" = some (.jobj ba0))
    (hc1 : (oget ba0 "rnd_research").isSome) (hc2 : (oget ba0 "content_creation").isSome)
    (hc3 : (oget ba0 "ads_paid").isSome) (hc4 : (oget ba0 "tools_tech").isSome)
    (hdefs : ∀ k ∈ defaultKeys, truthyO (oget plan k) = true)
    (hph : phasesDefective plan = false)
    (hkm : oget plan "kpi_targets" = some (.jobj km))
    (hk1 : (oget km "leads").isSome) (hk2 : (oget km "conversion_rate").isSome)
    (hk3 : (oget km "roi_expected").isSome) (hk4 : (oget km "cac_target").isSome)
    (hra : oget plan "risk_assessment" = some (.jobj ra))
    (hr1 : truthyO (oget ra "high") = true) (hr2 : truthyO (oget ra "medium") = true)
    (hr3 : (oget ra "mitigation").isSome)
    (hnm : oget plan "rnd_params" = some (.jobj nm))
    (hn1 : (oget nm "research_topics").isSome) (hn2 : (oget nm "competitor_analysis").isSome)
    (hn3 : (oget nm "market_research").isSome)
    (hmm : oget plan "marketing_params" = some (.jobj mm))
    (hm1 : (oget mm "campaign_type").isSome) (hm2 : (oget mm "creative_brief").isSome)
    (hm3 : (oget mm "ad_budget").isSome) :
    validate_and_fix_plan plan reqs ins =
      .ok (oset (stampTotal plan ba0 (safe_float (oget reqs "budget")))
        "conversation_insights" (.jobj ins)) := by
  have hensure : ensureBA plan = plan := ensureBA_of_present (by rw [hba]; rfl)
  have h1 : totalStep (ensureBA plan) (safe_float (oget reqs "budget")) =
      .ok (stampTotal plan ba0 (safe_float (oget reqs "budget"))) := by
    rw [hensure]
    exact totalStep_of_obj _ hba
  -- the state after the insights stamp
  have hp2 : stampInsights (stampTotal plan ba0 (safe_float (oget reqs "budget"))) ins =
      oset (stampTotal plan ba0 (safe_float (oget reqs "budget")))
        "conversation_insights" (.jobj ins) := by
    unfold stampInsights
    rw [if_neg (by simpa using hins)]
  -- lookups on the stamped state reduce to lookups on the input plan
  have hP : ∀ k, k ≠ "conversation_insights" → k ≠ "budget_allocation" →
      oget (oset (stampTotal plan ba0 (safe_float (oget reqs "budget")))
        "conversation_insights" (.jobj ins)) k = oget plan k := by
    intro k hk1' hk2'
    rw [oget_oset_ne _ _ hk1', oget_stampTotal_ne _ _ _ hk2']
  have hPba : oget (oset (stampTotal plan ba0 (safe_float (oget reqs "budget")))
      "conversation_insights" (.jobj ins)) "budget_allocation" =
        some (.jobj (oset ba0 "total" (.jnum (safe_float (oget reqs "budget"))))) := by
    rw [oget_oset_ne _ _ (by decide)]
    exact oget_stampTotal_self _ _ _
  have h3 : defaultsStep (oset (stampTotal plan ba0 (safe_float (oget reqs "budget")))
      "conversation_insights" (.jobj ins)) reqs =
      .ok (oset (stampTotal plan ba0 (safe_float (oget reqs "budget")))
        "conversation_insights" (.jobj ins)) := by
    apply defaultsStep_noop hch
    intro k hk
    have e1 : k ≠ "conversation_insights" := by intro e; subst e; revert hk; decide
    have e2 : k ≠ "budget_allocation" := by intro e; subst e; revert hk; decide
    rw [hP k e1 e2]
    exact hdefs k hk
  have hphs : phasesStep (oset (stampTotal plan ba0 (safe_float (oget reqs "budget")))
      "conversation_insights" (.jobj ins)) =
      oset (stampTotal plan ba0 (safe_float (oget reqs "budget")))
        "conversation_insights" (.jobj ins) := by
    apply phasesStep_noop
    rw [phasesDefective_congr (hP "phases" (by decide) (by decide))]
    exact hph
  have h5 : budgetComponentsStep (oset (stampTotal plan ba0 (safe_float (oget reqs "budget")))
      "conversation_insights" (.jobj ins)) (safe_float (oget reqs "budget")) =
      .ok (oset (stampTotal plan ba0 (safe_float (oget reqs "budget")))
        "conversation_insights" (.jobj ins)) := by
    apply budgetComponentsStep_noop hPba
    · exact oget_oset_isSome_mono _ _ hc1
    · exact oget_oset_isSome_mono _ _ hc2
    · exact oget_oset_isSome_mono _ _ hc3
    · exact oget_oset_isSome_mono _ _ hc4
    · exact oget_oset_self _ _ _
  have h6 : kpiStep (oset (stampTotal plan ba0 (safe_float (oget reqs "budget")))
      "conversation_insights" (.jobj ins)) (safe_float (oget reqs "budget")) =
      .ok (oset (stampTotal plan ba0 (safe_float (oget reqs "budget")))
        "conversation_insights" (.jobj ins)) := by
    have hm : oget (oset (stampTotal plan ba0 (safe_float (oget reqs "budget")))
        "conversation_insights" (.jobj ins)) "kpi_targets" = some (.jobj km) := by
      rw [hP _ (by decide) (by decide)]; exact hkm
    revert hm
    rw [hq]
    intro hm
    exact kpiStep_noop hm hk1 hk2 hk3 hk4
  have h7 : riskStep (oset (stampTotal plan ba0 (safe_float (oget reqs "budget")))
      "conversation_insights" (.jobj ins)) =
      oset (stampTotal plan ba0 (safe_float (oget reqs "budget")))
        "conversation_insights" (.jobj ins) :=
    riskStep_noop (by rw [hP _ (by decide) (by decide)]; exact hra) hr1 hr2 hr3
  have h8 : rndStep (oset (stampTotal plan ba0 (safe_float (oget reqs "budget")))
      "conversation_insights" (.jobj ins)) =
      oset (stampTotal plan ba0 (safe_float (oget reqs "budget")))
        "conversation_insights" (.jobj ins) :=
    rndStep_noop (by rw [hP _ (by decide) (by decide)]; exact hnm) hn1 hn2 hn3
  have h9 : marketingStep (oset (stampTotal plan ba0 (safe_float (oget reqs "budget")))
      "conversation_insights" (.jobj ins)) reqs (safe_float (oget reqs "budget")) =
      oset (stampTotal plan ba0 (safe_float (oget reqs "budget")))
        "conversation_insights" (.jobj ins) :=
    marketingStep_noop reqs _ (by rw [hP _ (by decide) (by decide)]; exact hmm) hm1 hm2 hm3
  have := validate_eq_of_chain plan reqs ins h1
    (by rw [hp2]; exact h3)
    (by rw [hphs]; exact h5)
    h6
  rw [this, h7, h8, h9]

/-! ## Claim theorems -/

/-- Did this call return normally (no exception)? -/
def isOkE (e : Except Err Obj) : Bool :=
  match e with
  | .ok _ => true
  | .error _ => false

/-- The returned plan of a successful call (used to name concrete
validator outputs in witnesses). -/
def extractOk : Except Err Obj → Obj
  | .ok o => o
  | .error _ => []

theorem oget_oset_nil_ne {k k' : String} (v : JVal) (h : k ≠ k') :
    oget (oset [] k v) k' = none := by
  show oget [(k, v)] k' = none
  rw [oget_cons, if_neg h]
  rfl

/-- C1: for every parsed model-output plan and every requirements
mapping, the plan returned by the validator/repairer has
`budget_allocation.total` exactly equal to the normalized requirement
budget `safe_float(requirements["budget"])`, regardless of what `total`
or `budget_allocation` the model produced. -/
theorem C1_total_equals_requirement_budget
    (plan reqs ins out : Obj)
    (h : validate_and_fix_plan plan reqs ins = .ok out) :
    oget2 out "budget_allocation" "total" =
      some (.jnum (safe_float (oget reqs "budget"))) := by
  obtain ⟨⟨baOut, hba, htot, -⟩, -⟩ := validate_ok_invariants h
  unfold oget2
  rw [hba]
  exact htot

/-- C1 witness: the model proposed `total = 5`; the requirements say
`"10 lakh"`; the returned plan's total is 1,000,000. -/
theorem C1_witness :
    oget2 (extractOk (validate_and_fix_plan
        [("budget_allocation", .jobj [("total", .jnum (.finite 5))])]
        [("budget", .jstr "10 lakh")] []))
      "budget_allocation" "total" = some (.jnum (.finite 1000000)) := by
  have h : validate_and_fix_plan
      [("budget_allocation", .jobj [("total", .jnum (.finite 5))])]
      [("budget", .jstr "10 lakh")] [] =
      .ok (extractOk (validate_and_fix_plan
        [("budget_allocation", .jobj [("total", .jnum (.finite 5))])]
        [("budget", .jstr "10 lakh")] [])) := by rfl
  rw [C1_total_equals_requirement_budget _ _ _ _ h]
  rfl

/-- C2: when the input plan's `phases` is not a list or is a list with
fewer than 3 entries (`phasesDefective`), repair replaces the phase list
wholesale with the fixed 3-phase template `phaseTemplate` (names
"Research & Planning" / "Content Creation" / "Campaign Execution",
durations 3/5/6 days, fixed deliverables and dependencies) with no
partial merge; when `phases` is a list of at least 3 entries (in
particular, of well-formed phases), repair leaves the phase list
unchanged. -/
theorem C2_phases_wholesale_or_unchanged
    (plan reqs ins out : Obj)
    (h : validate_and_fix_plan plan reqs ins = .ok out) :
    (phasesDefective plan = true → oget out "phases" = some phaseTemplate) ∧
    (phasesDefective plan = false → oget out "phases" = oget plan "phases") := by
  have hph := validate_ok_phases h
  constructor
  · intro hd
    rw [hph, if_pos hd]
  · intro hd
    rw [hph, if_neg (by simp [hd])]

/-- C2 witness: a plan with no phases gets exactly the template; a plan
with a 3-entry phase list keeps it verbatim. -/
theorem C2_witness :
    phasesDefective [] = true ∧
    oget (extractOk (validate_and_fix_plan [] [] [])) "phases" = some phaseTemplate ∧
    phasesDefective [("phases", .jarr [.jnull, .jnull, .jnull])] = false ∧
    oget (extractOk (validate_and_fix_plan
        [("phases", .jarr [.jnull, .jnull, .jnull])] [] [])) "phases" =
      some (.jarr [.jnull, .jnull, .jnull]) := by
  have h1 : validate_and_fix_plan [] [] [] = .ok (extractOk (validate_and_fix_plan [] [] [])) := by
    rfl
  have h2 : validate_and_fix_plan [("phases", .jarr [.jnull, .jnull, .jnull])] [] [] =
      .ok (extractOk (validate_and_fix_plan
        [("phases", .jarr [.jnull, .jnull, .jnull])] [] [])) := by rfl
  refine ⟨by decide, (C2_phases_wholesale_or_unchanged _ _ _ _ h1).1 (by decide), by decide, ?_⟩
  rw [(C2_phases_wholesale_or_unchanged _ _ _ _ h2).2 (by decide)]
  rfl

/-- C3 counterexample: the claim "never raises for structural reasons"
is false of the code.  Three concrete raising inputs: a non-dict
`budget_allocation` (Python `TypeError` at
`plan["budget_allocation"]["total"] = budget`), a truthy non-string
`channels` requirement (`AttributeError` at `.split(",")`), and a budget
normalizing to infinity (`OverflowError` at `int(budget / 1000)`). -/
theorem C3_counterexample :
    isOkE (validate_and_fix_plan [("budget_allocation", .jstr "x")] [] []) = false ∧
    isOkE (validate_and_fix_plan [] [("channels", .jnum (.finite 5))] []) = false ∧
    isOkE (validate_and_fix_plan [] [("budget", .jstr "inf")] []) = false := by
  refine ⟨rfl, rfl, rfl⟩

/-- C3 amended: for every model-output object whose `budget_allocation`
is absent or an object, whose requirements hold no truthy non-string
under `channels`, and whose normalized budget is finite, the
validator/repairer returns a plan without raising, and the returned plan
satisfies every §3 invariant: `total` equals the normalized budget, all
four budget components are present, `phases` holds at least 3 entries,
every defaulted top-level field is present and truthy, and
`kpi_targets` / `risk_assessment` / `rnd_params` / `marketing_params`
are present objects with their individually-defaulted sub-fields
present. -/
theorem C3_amended_total_and_invariants
    (plan reqs ins : Obj) (q : ℚ)
    (hba : baOK plan = true) (hch : channelsOK reqs = true)
    (hq : safe_float (oget reqs "budget") = .finite q) :
    ∃ out, validate_and_fix_plan plan reqs ins = .ok out ∧
      (∃ baOut, oget out "budget_allocation" = some (.jobj baOut) ∧
        oget baOut "total" = some (.jnum (safe_float (oget reqs "budget"))) ∧
        (oget baOut "rnd_research").isSome ∧ (oget baOut "content_creation").isSome ∧
        (oget baOut "ads_paid").isSome ∧ (oget baOut "tools_tech").isSome) ∧
      (∃ xs, oget out "phases" = some (.jarr xs) ∧ 3 ≤ xs.length) ∧
      (∀ k ∈ defaultKeys, truthyO (oget out k) = true) ∧
      (∃ km, oget out "kpi_targets" = some (.jobj km) ∧
        (oget km "leads").isSome ∧ (oget km "conversion_rate").isSome ∧
        (oget km "roi_expected").isSome ∧ (oget km "cac_target").isSome) ∧
      (∃ rm, oget out "risk_assessment" = some (.jobj rm) ∧
        truthyO (oget rm "high") = true ∧ truthyO (oget rm "medium") = true ∧
        (oget rm "mitigation").isSome) ∧
      (∃ nm, oget out "rnd_params" = some (.jobj nm) ∧
        (oget nm "research_topics").isSome ∧ (oget nm "competitor_analysis").isSome ∧
        (oget nm "market_research").isSome) ∧
      (∃ mm, oget out "marketing_params" = some (.jobj mm) ∧
        (oget mm "campaign_type").isSome ∧ (oget mm "creative_brief").isSome ∧
        (oget mm "ad_budget").isSome) := by
  obtain ⟨out, hout⟩ := validate_total hba hch hq
  exact ⟨out, hout, validate_ok_invariants hout⟩

/-- C3 witness: a malformed plan (string `phases`) with benign
requirements passes the amended hypotheses, so the validator returns a
plan. -/
theorem C3_witness :
    ∃ out, validate_and_fix_plan [("phases", .jstr "oops")]
      [("budget", .jstr "2 cr"), ("channels", .jstr "LinkedIn, YouTube")] [] = .ok out := by
  obtain ⟨out, hout, -⟩ := C3_amended_total_and_invariants
    [("phases", .jstr "oops")]
    [("budget", .jstr "2 cr"), ("channels", .jstr "LinkedIn, YouTube")] [] 20000000
    (by decide) (by decide) (by decide)
  exact ⟨out, hout⟩

set_option maxRecDepth 10000 in
/-- C6 counterexample: under faithful binary64 arithmetic the claim's
exact-proportion and exact-sum conclusions are false.  The float
literals `0.15` and `0.10` are not representable doubles, so at budget 3
the stored `rnd_research` component is the double
`2026619832316723 / 2 ^ 52 = 0.44999999999999996…`, not `0.45`; and at
budget 7 the exact sum of the four stored components is
`63050394783186945 / 2 ^ 53`, one unit in the last place above 7.
(Each value here matches what CPython computes for `budget * 0.15` and
the analogous products of `Ceo.py` lines 442-445.) -/
theorem C6_counterexample :
    (budgetComponentsF 3).1 = 2026619832316723 / 2 ^ 52 ∧
    (budgetComponentsF 3).1 ≠ 15 / 100 * 3 ∧
    (budgetComponentsF 7).1 + (budgetComponentsF 7).2.1 +
        (budgetComponentsF 7).2.2.1 + (budgetComponentsF 7).2.2.2 =
      63050394783186945 / 2 ^ 53 ∧
    (63050394783186945 : ℚ) / 2 ^ 53 ≠ 7 ∧
    fl (15 / 100) ≠ 15 / 100 ∧ fl (10 / 100) ≠ 10 / 100 := by
  exact ⟨by decide, by decide, by decide, by decide, by decide, by decide⟩

set_option maxRecDepth 10000 in
/-- C6 (amended): for every requirement budget B ≥ 0, repairing a plan
whose `budget_allocation` is entirely absent fills the four components
`rnd_research`, `content_creation`, `ads_paid`, `tools_tech` and stamps
`total` exactly equal to B — `total` is assigned, not computed, so it is
exact even under binary64 rounding.  The component values themselves are
the once-rounded double products of `budgetComponentsF`, not the ideal
exact proportions: the literals `0.25` and `0.50` are exact doubles
while `0.15` and `0.10` are not, so for instance at budget 3 the stored
values are `(0.44999999999999996, 0.75, 1.5, 0.30000000000000004)`. -/
theorem C6_amended_absent_budget_allocation
    (plan reqs ins out : Obj) (B : ℚ)
    (hB : 0 ≤ B)
    (habsent : oget plan "budget_allocation" = none)
    (hq : safe_float (oget reqs "budget") = .finite B)
    (h : validate_and_fix_plan plan reqs ins = .ok out) :
    (∃ baOut, oget out "budget_allocation" = some (.jobj baOut) ∧
      (oget baOut "rnd_research").isSome ∧
      (oget baOut "content_creation").isSome ∧
      (oget baOut "ads_paid").isSome ∧
      (oget baOut "tools_tech").isSome ∧
      oget baOut "total" = some (.jnum (.finite B))) ∧
    budgetComponentsF 3 =
      (2026619832316723 / 2 ^ 52, 3 / 4, 3 / 2, 1351079888211149 / 2 ^ 52) ∧
    fl (25 / 100) = 25 / 100 ∧ fl (50 / 100) = 50 / 100 := by
  refine ⟨?_, by decide, by decide, by decide⟩
  obtain ⟨ba, cd, p5, p6, hba, hcd, hb, hk, hout⟩ := validate_ok_decomp h
  have hban : ba = [] := by
    rw [oget_ensureBA_self, habsent] at hba
    simpa using hba.symm
  subst hban
  obtain ⟨ba1, hba1, hp5⟩ := budgetComponentsStep_ok_spec hb
  have hp4 : oget (phasesStep (applyDefaults
      (stampInsights (stampTotal (ensureBA plan) [] (safe_float (oget reqs "budget"))) ins)
      (defaultsList reqs cd))) "budget_allocation" =
        some (.jobj (oset [] "total" (.jnum (safe_float (oget reqs "budget"))))) := by
    rw [oget_phasesStep_ne _ (by decide),
      oget_applyDefaults_ne _ (defaultsList_keys_ne reqs cd (by decide)),
      oget_stampInsights_ne _ _ (by decide)]
    exact oget_stampTotal_self _ _ _
  have hba1' : ba1 = oset [] "total" (.jnum (safe_float (oget reqs "budget"))) := by
    rw [hp4] at hba1
    simpa using hba1.symm
  subst hba1'
  obtain ⟨-, hkfoot, -⟩ := kpiStep_ok_spec hk
  obtain ⟨hrfoot, -⟩ := riskStep_spec p6
  obtain ⟨hnfoot, -⟩ := rndStep_spec (riskStep p6)
  obtain ⟨hmfoot, -⟩ :=
    marketingStep_spec (rndStep (riskStep p6)) reqs (safe_float (oget reqs "budget"))
  subst hout
  have hbaout : oget (marketingStep (rndStep (riskStep p6)) reqs
      (safe_float (oget reqs "budget"))) "budget_allocation" =
      some (.jobj (baDefaults (oset [] "total" (.jnum (safe_float (oget reqs "budget"))))
        (safe_float (oget reqs "budget")))) := by
    rw [hmfoot _ (by decide), hnfoot _ (by decide), hrfoot _ (by decide),
      hkfoot _ (by decide), hp5]
    exact oget_oset_self _ _ _
  rw [hq] at hbaout
  rw [hq]
  refine ⟨_, hbaout, ?_, ?_, ?_, ?_, ?_⟩
  · unfold baDefaults
    rw [oget_oset_ne _ _ (by decide),
      oget_osetdefault_ne _ _ (by decide),
      oget_osetdefault_ne _ _ (by decide),
      oget_osetdefault_ne _ _ (by decide),
      oget_osetdefault_self, oget_oset_nil_ne _ (by decide)]
    rfl
  · unfold baDefaults
    rw [oget_oset_ne _ _ (by decide),
      oget_osetdefault_ne _ _ (by decide),
      oget_osetdefault_ne _ _ (by decide),
      oget_osetdefault_self,
      oget_osetdefault_ne _ _ (by decide), oget_oset_nil_ne _ (by decide)]
    rfl
  · unfold baDefaults
    rw [oget_oset_ne _ _ (by decide),
      oget_osetdefault_ne _ _ (by decide),
      oget_osetdefault_self,
      oget_osetdefault_ne _ _ (by decide),
      oget_osetdefault_ne _ _ (by decide), oget_oset_nil_ne _ (by decide)]
    rfl
  · unfold baDefaults
    rw [oget_oset_ne _ _ (by decide),
      oget_osetdefault_self,
      oget_osetdefault_ne _ _ (by decide),
      oget_osetdefault_ne _ _ (by decide),
      oget_osetdefault_ne _ _ (by decide), oget_oset_nil_ne _ (by decide)]
    rfl
  · unfold baDefaults
    exact oget_oset_self _ _ _

set_option maxRecDepth 10000 in
/-- C6 witness: B = 100000, an empty model plan, requirements carrying
the numeric budget 100000; the repaired plan holds all four components
with `total = 100000`. -/
theorem C6_witness :
    (∃ baOut, oget (extractOk (validate_and_fix_plan []
        [("budget", .jnum (.finite 100000))] [])) "budget_allocation" =
          some (.jobj baOut) ∧
      (oget baOut "rnd_research").isSome ∧
      (oget baOut "content_creation").isSome ∧
      (oget baOut "ads_paid").isSome ∧
      (oget baOut "tools_tech").isSome ∧
      oget baOut "total" = some (.jnum (.finite 100000))) ∧
    budgetComponentsF 3 =
      (2026619832316723 / 2 ^ 52, 3 / 4, 3 / 2, 1351079888211149 / 2 ^ 52) ∧
    fl (25 / 100) = 25 / 100 ∧ fl (50 / 100) = 50 / 100 := by
  have h : validate_and_fix_plan [] [("budget", .jnum (.finite 100000))] [] =
      .ok (extractOk (validate_and_fix_plan [] [("budget", .jnum (.finite 100000))] [])) := by
    rfl
  exact C6_amended_absent_budget_allocation []
    [("budget", .jnum (.finite 100000))] [] _ 100000 (by norm_num) rfl rfl h

/-- C4 counterexample: the claim as stated fails twice on the code.
`safe_float("2 crore")` is the default 100000, not 20,000,000: the
`.replace("cr", "")` pass turns `"2 crore"` into `"2 ore"`, which does
not parse, so the ×10,000,000 rule never fires for a spelled-out
"crore".  And the result is not always finite: a numeric `inf` input is
returned as-is. -/
theorem C4_counterexample :
    safe_float (some (.jstr "2 crore")) = .finite 100000 ∧
    PFloat.finite 100000 ≠ PFloat.finite 20000000 ∧
    safe_float (some (.jnum .inf)) = .inf ∧
    PFloat.inf.isFinite = false := by
  exact ⟨by decide, by decide, rfl, rfl⟩

/-- C4 amended: `safe_float` is total; numeric input (int/float,
including Python booleans, which are ints) is returned as-is, so
non-finite numeric input propagates; a string containing "lakh"/"lkh"
has those tokens stripped and the remainder parsed and multiplied by
100,000 (`"10 lakh"`, `"10 lkh"` → 1,000,000); a string containing "cr"
has "cr" stripped and the remainder multiplied by 10,000,000 (`"2 cr"` →
20,000,000), but a spelled-out `"2 crore"` falls back to the default
because the "cr" strip mangles the token; other strings are parsed as
plain numbers (`"50000"` → 50,000); `None` and unparseable strings yield
the fixed default 100,000; finite numeric input yields finite output. -/
theorem C4_amended_safe_float_behaviour :
    (∀ x : PFloat, safe_float (some (.jnum x)) = x) ∧
    safe_float none = .finite 100000 ∧
    safe_float (some .jnull) = .finite 100000 ∧
    safe_float (some (.jstr "10 lakh")) = .finite 1000000 ∧
    safe_float (some (.jstr "10 lkh")) = .finite 1000000 ∧
    safe_float (some (.jstr "2 cr")) = .finite 20000000 ∧
    safe_float (some (.jstr "2 crore")) = .finite 100000 ∧
    safe_float (some (.jstr "50000")) = .finite 50000 ∧
    safe_float (some (.jstr "garbage")) = .finite 100000 ∧
    (∀ q : ℚ, (safe_float (some (.jnum (.finite q)))).isFinite = true) ∧
    (∀ b : Bool, safe_float (some (.jbool b)) = .finite (if b then 1 else 0)) ∧
    (∀ xs : List JVal, safe_float (some (.jarr xs)) = .finite 100000) ∧
    (∀ fs : List (String × JVal), safe_float (some (.jobj fs)) = .finite 100000) := by
  refine ⟨fun x => rfl, rfl, rfl, by decide, by decide, by decide, by decide,
    by decide, by decide, fun q => rfl, fun b => rfl, fun xs => rfl, fun fs => rfl⟩

/-- C5 counterexample: with no conversation history the generated plan's
`conversation_insights` is whatever the model emitted, not the fixed
no-history default object: here the model put the string
`"model-made"` there and the returned plan keeps it. -/
theorem C5_counterexample :
    analyze_requirements [("budget", .jstr "10 lakh")] [] (.fail "unused")
        (.ok [("conversation_insights", .jstr "model-made")]) =
      .ok (extractOk (analyze_requirements [("budget", .jstr "10 lakh")] []
        (.fail "unused") (.ok [("conversation_insights", .jstr "model-made")]))) ∧
    oget (extractOk (analyze_requirements [("budget", .jstr "10 lakh")] []
        (.fail "unused") (.ok [("conversation_insights", .jstr "model-made")])))
      "conversation_insights" = some (.jstr "model-made") ∧
    some (JVal.jstr "model-made") ≠ some (.jobj noHistoryInsights) := by
  refine ⟨rfl, rfl, fun h => by injection h with h; exact JVal.noConfusion h⟩

/-- C5 amended: with no conversation history, `analyze_requirements`
never consults the insight model (insights stay `{}`), so the plan's
`conversation_insights` is carried over from the model output
unmodified (absent if the model omitted it); the fixed no-history
default object is produced only by `_extract_conversation_insights`
itself on an empty history, which this path never calls. -/
theorem C5_amended_no_history_insights (reqs : Obj) (io io2 po : LLMResult) :
    analyze_requirements reqs [] io po = analyze_requirements reqs [] io2 po ∧
    (∀ o : LLMResult, extract_conversation_insights [] o = noHistoryInsights) ∧
    (∀ plan out : Obj, analyze_requirements reqs [] io (.ok plan) = .ok out →
      oget out "conversation_insights" = oget plan "conversation_insights") := by
  refine ⟨rfl, fun o => rfl, fun plan out h => ?_⟩
  unfold analyze_requirements at h
  obtain ⟨a1, -, h⟩ := except_bind_ok h
  obtain ⟨a2, -, h⟩ := except_bind_ok h
  obtain ⟨a3, -, h⟩ := except_bind_ok h
  obtain ⟨a4, -, h⟩ := except_bind_ok h
  obtain ⟨a5, -, h⟩ := except_bind_ok h
  obtain ⟨a6, -, h⟩ := except_bind_ok h
  obtain ⟨a7, -, h⟩ := except_bind_ok h
  have := validate_ok_insights h
  simpa using this

/-- C5 witness: concrete application of the amended claim — the model's
own `conversation_insights` object survives the no-history path. -/
theorem C5_witness :
    oget (extractOk (analyze_requirements [("budget", .jstr "10 lakh")] [] (.fail "x")
        (.ok [("conversation_insights", .jobj [("k", .jstr "v")])])))
      "conversation_insights" = some (.jobj [("k", .jstr "v")]) := by
  have h : analyze_requirements [("budget", .jstr "10 lakh")] [] (.fail "x")
      (.ok [("conversation_insights", .jobj [("k", .jstr "v")])]) =
      .ok (extractOk (analyze_requirements [("budget", .jstr "10 lakh")] [] (.fail "x")
        (.ok [("conversation_insights", .jobj [("k", .jstr "v")])]))) := by rfl
  rw [(C5_amended_no_history_insights [("budget", .jstr "10 lakh")] (.fail "x")
    (.fail "y") (.ok [("conversation_insights", .jobj [("k", .jstr "v")])])).2.2
    [("conversation_insights", .jobj [("k", .jstr "v")])] _ h]
  rfl

/-- Python `s[:n]`. -/
def pyTake (n : ℕ) (s : String) : String :=
  ⟨s.data.take n⟩

/-- A 160-character exception message. -/
def c7LongMsg : String :=
  String.mk (List.replicate 160 'x')

set_option maxRecDepth 4000 in
/-- C7 counterexample: the message surfaced in the HTTP 500 detail is
the full `str(e)`, not the 150-character truncation (which only feeds
the log line at Ceo.py line 381): for a 160-character message the detail
embeds all 160 characters. -/
theorem C7_counterexample :
    ceo_analyze [] none 0 (.fail "unused") (.fail c7LongMsg) =
      .error ⟨500, "CEO Analysis failed: " ++ c7LongMsg⟩ ∧
    c7LongMsg.length = 160 ∧
    pyTake 150 c7LongMsg ≠ c7LongMsg := by
  refine ⟨rfl, by decide, by decide⟩

/-- C7 amended: if the model call itself fails during plan generation,
the exception propagates (re-raised unchanged by `analyze_requirements`)
and `POST /api/v1/ceo/analyze` surfaces it as HTTP 500 with detail
`"CEO Analysis failed: " + str(e)` — the full, untruncated message; no
plan-shaped fallback is returned and no retry occurs (the single
outcome is this error).  The hypothesis restricts to requirements whose
normalized budget is finite, since a non-finite budget aborts earlier
with a different exception. -/
theorem C7_amended_llm_failure_propagates
    (reqs : Obj) (convId : Option String) (ts : ℕ) (io : LLMResult)
    (m : String) (q : ℚ)
    (hq : safe_float (oget reqs "budget") = .finite q) :
    ceo_analyze reqs convId ts io (.fail m) =
      .error ⟨500, "CEO Analysis failed: " ++ m⟩ := by
  have hana : analyze_requirements reqs [] io (.fail m) = .error (.llmError m) := by
    simp only [analyze_requirements, hq]
    rfl
  simp only [ceo_analyze, hana]
  rfl

/-- C7 witness: a failing model call with message "Connection refused"
is surfaced as a 500 carrying exactly that message. -/
theorem C7_witness :
    ceo_analyze [("budget", .jstr "10 lakh")] (some "conv1") 0 (.fail "ignored")
      (.fail "Connection refused") =
      .error ⟨500, "CEO Analysis failed: Connection refused"⟩ :=
  C7_amended_llm_failure_propagates [("budget", .jstr "10 lakh")] (some "conv1") 0
    (.fail "ignored") "Connection refused" 1000000 (by decide)

theorem presentKw_isSome (ws : List String) (t : String) :
    (presentKw ws t).isSome = ws.any (fun w => containsL w.data t.data) := by
  unfold presentKw
  split
  · next h => simp [h]
  · next h =>
      rw [Bool.not_eq_true] at h
      simp [h]

/-- C8: for every conversation text, the field extractor marks each of
the six fields present iff one of its fixed keywords occurs as a
case-insensitive substring of the text; completeness is
(count of present fields)/6; empty text yields all fields absent and
completeness 0; "I want to sell supplements" yields only
`product_service` present and completeness 1/6.  The functions are
deterministic total Lean functions, so they have no side effects and
never fail. -/
theorem C8_field_extractor_and_completeness :
    (∀ text : String,
      (extract_requirements_from_text text).product_service.isSome =
        productKeywords.any (fun w => containsL w.data (lowerStr text).data) ∧
      (extract_requirements_from_text text).target_audience.isSome =
        audienceKeywords.any (fun w => containsL w.data (lowerStr text).data) ∧
      (extract_requirements_from_text text).budget.isSome =
        budgetKeywords.any (fun w => containsL w.data (lowerStr text).data) ∧
      (extract_requirements_from_text text).timeline.isSome =
        timelineKeywords.any (fun w => containsL w.data (lowerStr text).data) ∧
      (extract_requirements_from_text text).channels.isSome =
        channelsKeywords.any (fun w => containsL w.data (lowerStr text).data) ∧
      (extract_requirements_from_text text).goals.isSome =
        goalsKeywords.any (fun w => containsL w.data (lowerStr text).data)) ∧
    (∀ r : Requirements, compute_completeness r = (collectedCount r : ℚ) / 6) ∧
    extract_requirements_from_text "" = ⟨none, none, none, none, none, none⟩ ∧
    compute_completeness (extract_requirements_from_text "") = 0 ∧
    extract_requirements_from_text "I want to sell supplements" =
      ⟨some "mentioned", none, none, none, none, none⟩ ∧
    compute_completeness (extract_requirements_from_text "I want to sell supplements") =
      1 / 6 := by
  refine ⟨fun text => ⟨?_, ?_, ?_, ?_, ?_, ?_⟩, fun r => rfl, rfl, by decide, rfl, by decide⟩
  all_goals exact presentKw_isSome _ _

/-- Three fully-formed phases for the C9 plans. -/
def c9Phases : JVal := .jarr [
  .jobj [("name", .jstr "Scope"), ("duration_days", .jnum (.finite 3)),
         ("deliverables", .jarr [.jstr "d1", .jstr "d2"]), ("owner", .jstr "R&D"),
         ("dependencies", .jarr []), ("milestone", .jbool true)],
  .jobj [("name", .jstr "Build"), ("duration_days", .jnum (.finite 5)),
         ("deliverables", .jarr [.jstr "d3", .jstr "d4"]), ("owner", .jstr "Marketing"),
         ("dependencies", .jarr [.jstr "Scope"]), ("milestone", .jbool true)],
  .jobj [("name", .jstr "Launch"), ("duration_days", .jnum (.finite 6)),
         ("deliverables", .jarr [.jstr "d5", .jstr "d6"]), ("owner", .jstr "CEO"),
         ("dependencies", .jarr [.jstr "Build"]), ("milestone", .jbool true)]]

/-- A complete `budget_allocation` whose total already equals the
requirement budget 100000. -/
def c9BA : Obj :=
  [("rnd_research", .jnum (.finite 15000)), ("content_creation", .jnum (.finite 25000)),
   ("ads_paid", .jnum (.finite 50000)), ("tools_tech", .jnum (.finite 10000)),
   ("total", .jnum (.finite 100000))]

def c9KPI : Obj :=
  [("leads", .jnum (.finite 100)), ("conversion_rate", .jstr "3-5%"),
   ("roi_expected", .jstr "2-3x"), ("cac_target", .jstr "₹1000")]

def c9RA : Obj :=
  [("high", .jarr [.jstr "h1", .jstr "h2"]), ("medium", .jarr [.jstr "m1", .jstr "m2"]),
   ("mitigation", .jstr "mit")]

def c9RND : Obj :=
  [("research_topics", .jarr [.jstr "t1", .jstr "t2"]),
   ("competitor_analysis", .jbool true), ("market_research", .jbool true)]

def c9MP : Obj :=
  [("campaign_type", .jstr "Awareness"), ("creative_brief", .jstr "brief"),
   ("ad_budget", .jnum (.finite 50000))]

/-- A fully-populated, schema-valid plan whose `should_trigger_rnd` flag
is `false` — the C9 counterexample input. -/
def c9PlanFalseFlag : Obj :=
  [("project_name", .jstr "P"), ("strategy_summary", .jstr "S"),
   ("executive_summary", .jstr "E"), ("phases", c9Phases),
   ("budget_allocation", .jobj c9BA), ("kpi_targets", .jobj c9KPI),
   ("channels_priority", .jarr [.jstr "LinkedIn", .jstr "YouTube"]),
   ("timeline_days", .jnum (.finite 14)),
   ("risk_assessment", .jobj c9RA),
   ("should_trigger_rnd", .jbool false),
   ("rnd_params", .jobj c9RND),
   ("should_trigger_marketing", .jbool true),
   ("marketing_params", .jobj c9MP),
   ("conversation_insights", .jobj [("customer_tone", .jstr "neutral")]),
   ("success_probability", .jstr "High")]

/-- The same plan with both trigger flags truthy — the C9 witness
input. -/
def c9ValidPlan : Obj :=
  [("project_name", .jstr "P"), ("strategy_summary", .jstr "S"),
   ("executive_summary", .jstr "E"), ("phases", c9Phases),
   ("budget_allocation", .jobj c9BA), ("kpi_targets", .jobj c9KPI),
   ("channels_priority", .jarr [.jstr "LinkedIn", .jstr "YouTube"]),
   ("timeline_days", .jnum (.finite 14)),
   ("risk_assessment", .jobj c9RA),
   ("should_trigger_rnd", .jbool true),
   ("rnd_params", .jobj c9RND),
   ("should_trigger_marketing", .jbool true),
   ("marketing_params", .jobj c9MP),
   ("conversation_insights", .jobj [("customer_tone", .jstr "neutral")]),
   ("success_probability", .jstr "High")]

def c9Reqs : Obj :=
  [("budget", .jnum (.finite 100000)), ("channels", .jstr "LinkedIn")]

def c9Ins : Obj := [("customer_tone", .jstr "enthusiastic")]

/-- C9 counterexample: repairing an already-valid, fully-populated plan
does not return it unchanged except for the two re-stamps: a valid plan
whose `should_trigger_rnd` is `false` comes back with the flag forced to
`true`, because the defaults loop replaces every falsy top-level value. -/
theorem C9_counterexample :
    oget c9PlanFalseFlag "should_trigger_rnd" = some (.jbool false) ∧
    validate_and_fix_plan c9PlanFalseFlag c9Reqs c9Ins =
      .ok (extractOk (validate_and_fix_plan c9PlanFalseFlag c9Reqs c9Ins)) ∧
    oget (extractOk (validate_and_fix_plan c9PlanFalseFlag c9Reqs c9Ins))
      "should_trigger_rnd" = some (.jbool true) := by
  refine ⟨rfl, rfl, rfl⟩

/-- C9 (amended): repairing an already-valid, fully-populated plan whose
defaulted top-level fields are all truthy returns it unchanged except
that `budget_allocation.total` is re-stamped from the requirements and
`conversation_insights` is re-stamped from the non-empty computed
insights — the output is literally the input with those two writes
applied.  (The hypotheses spell out "valid and fully populated": a dict
`budget_allocation` with all four components, at least 3 phases, truthy
defaulted fields, and the four sub-objects with their sub-fields; plus a
finite budget and a benign `channels` requirement, without which the
validator raises.) -/
theorem C9_idempotent_up_to_restamps {plan reqs ins ba0 km ra nm mm : Obj} {q : ℚ}
    (hq : safe_float (oget reqs "budget") = .finite q)
    (hch : channelsOK reqs = true)
    (hins : ¬ ins.isEmpty)
    (hba : oget plan "budget_allocation" = some (.jobj ba0))
    (hc1 : (oget ba0 "rnd_research").isSome) (hc2 : (oget ba0 "content_creation").isSome)
    (hc3 : (oget ba0 "ads_paid").isSome) (hc4 : (oget ba0 "tools_tech").isSome)
    (hdefs : ∀ k ∈ defaultKeys, truthyO (oget plan k) = true)
    (hph : phasesDefective plan = false)
    (hkm : oget plan "kpi_targets" = some (.jobj km))
    (hk1 : (oget km "leads").isSome) (hk2 : (oget km "conversion_rate").isSome)
    (hk3 : (oget km "roi_expected").isSome) (hk4 : (oget km "cac_target").isSome)
    (hra : oget plan "risk_assessment" = some (.jobj ra))
    (hr1 : truthyO (oget ra "high") = true) (hr2 : truthyO (oget ra "medium") = true)
    (hr3 : (oget ra "mitigation").isSome)
    (hnm : oget plan "rnd_params" = some (.jobj nm))
    (hn1 : (oget nm "research_topics").isSome) (hn2 : (oget nm "competitor_analysis").isSome)
    (hn3 : (oget nm "market_research").isSome)
    (hmm : oget plan "marketing_params" = some (.jobj mm))
    (hm1 : (oget mm "campaign_type").isSome) (hm2 : (oget mm "creative_brief").isSome)
    (hm3 : (oget mm "ad_budget").isSome) :
    validate_and_fix_plan plan reqs ins =
      .ok (oset (stampTotal plan ba0 (safe_float (oget reqs "budget")))
        "conversation_insights" (.jobj ins)) :=
  validate_noop hq hch hins hba hc1 hc2 hc3 hc4 hdefs hph hkm hk1 hk2 hk3 hk4
    hra hr1 hr2 hr3 hnm hn1 hn2 hn3 hmm hm1 hm2 hm3

/-- C9 witness: the valid plan with truthy flags maps to exactly itself
with the total and the insights re-stamped. -/
theorem C9_witness :
    validate_and_fix_plan c9ValidPlan c9Reqs c9Ins =
      .ok (oset (stampTotal c9ValidPlan c9BA (safe_float (oget c9Reqs "budget")))
        "conversation_insights" (.jobj c9Ins)) :=
  C9_idempotent_up_to_restamps
    (show safe_float (oget c9Reqs "budget") = PFloat.finite 100000 from rfl)
    (by decide) (by decide) rfl
    (by decide) (by decide) (by decide) (by decide) (by decide) (by decide)
    rfl (by decide) (by decide) (by decide) (by decide)
    rfl (by decide) (by decide) (by decide)
    rfl (by decide) (by decide) (by decide)
    rfl (by decide) (by decide) (by decide)

/-- C10: `GET /api/v1/customer/ready/{id}` never returns a readiness
boolean and never a 404: the handler calls
`customer_agent.is_ready_for_ceo`, a name `customer.py` does not define,
so every request — existing conversation or not — raises
`AttributeError` and is surfaced by the generic handler as HTTP 500. -/
theorem C10_ready_endpoint_always_500 (conversationId : String) :
    customer_ready_for_ceo conversationId =
      .error ⟨500, "module Backend.agents.customer has no attribute is_ready_for_ceo"⟩ := by
  rfl

end AutomateIO
